import Mathlib

/-!
Verification of the Atlas GTM knowledge-base core (brain lifecycle state
machine, content-seeding pipeline, insight quality gate) against its
specification.

The definitions below are a shallow embedding of
`mcp-servers/atlas_gtm_mcp/qdrant/__init__.py`.  The vector store (Qdrant) is
modelled as explicit state: a list of brain points plus named content
collections of points.  Each tool is a pure function from the store (and the
external collaborators it calls) to a new store together with either a result
or a raised `ToolError`; when an error is returned the store component is the
store at the moment of the raise, so "no write happened" is provable.

External collaborators (embedding provider, similarity scoring) are passed in
as function parameters, mirroring §6 of the spec.  Machine floats are
modelled as rationals.  Vectors returned by the embedding provider are opaque
to every property below.  The helper modules `models.py` and
`quality_gates.py` of the qdrant package are not in the source tree (only
their import list and call sites are); the definitions taken from them are
marked `Modelled from the spec:` and follow the spec text.
-/

namespace AtlasGTM

/-- Embedding vectors; their contents are opaque to all properties proved
here, so components are modelled as rationals. -/
abbrev Vec := List ℚ

/-- Brain lifecycle status (spec §3: `status ∈ \x7bdraft, active, archived\x7d`). -/
inductive BrainStatus where
  | draft
  | active
  | archived
deriving DecidableEq, Repr

/-- The stored string form of a status. -/
def BrainStatus.toStr : BrainStatus → String
  | .draft => "draft"
  | .active => "active"
  | .archived => "archived"

/-- Parse a status string, as `BrainStatus(status)` does; `none` models the
`ValueError` branch. -/
def parseBrainStatus : String → Option BrainStatus
  | "draft" => some BrainStatus.draft
  | "active" => some BrainStatus.active
  | "archived" => some BrainStatus.archived
  | _ => none

/-- Modelled from the spec: `VALID_TRANSITIONS` lives in the package's
`models.py`, which is not in the source tree.  Spec §4.1 state machine:
draft→active, active→archived, archived→active, all other transitions
rejected.  `.get(current, [])` in the caller is total here. -/
def VALID_TRANSITIONS : BrainStatus → List BrainStatus
  | .draft => [BrainStatus.active]
  | .active => [BrainStatus.archived]
  | .archived => [BrainStatus.active]

/-- Modelled from the spec: `validate_status_transition` (in the missing
`models.py`) holds exactly when the target status is a legal target of the
current status. -/
def validate_status_transition (current new : BrainStatus) : Bool :=
  decide (new ∈ VALID_TRANSITIONS current)

/-- Modelled from the spec: `validate_brain_id` (in the missing `models.py`).
The in-tree docstrings give the id pattern `brain_\x7bvertical\x7d_v\x7bversion\x7d`;
the model checks the stable prefix, which is all any claim below needs. -/
def validate_brain_id (s : String) : Bool :=
  decide (s.data.take 6 = ("brain_" : String).data) && decide (s.data.length > 6)

/-- Modelled from the spec: `generate_point_id` (in the missing `models.py`)
is the `stable_hash(brain_id, key)` of spec §6 — a pure, deterministic
function of its two arguments, modelled as their tagged concatenation. -/
def generate_point_id (brain_id key : String) : String :=
  brain_id ++ ":" ++ key

/-- Modelled from the spec: validation status of an insight
(spec §3: `validation_status ∈ \x7bpending, validated, rejected\x7d`). -/
inductive ValidationStatus where
  | pending
  | validated
  | rejected
deriving DecidableEq, Repr

/-- Stored string form of a validation status (`ValidationStatus.PENDING.value`). -/
def ValidationStatus.toStr : ValidationStatus → String
  | .pending => "pending"
  | .validated => "validated"
  | .rejected => "rejected"

/-- Importance level of an insight. -/
inductive Importance where
  | low
  | medium
  | high
deriving DecidableEq, Repr

/-- Parse an importance string, as `Importance(importance)` does. -/
def parseImportance : String → Option Importance
  | "low" => some Importance.low
  | "medium" => some Importance.medium
  | "high" => some Importance.high
  | _ => none

/-- The legal insight category values (`InsightCategory` enum). -/
def insightCategories : List String :=
  ["buying_process", "pain_point", "objection", "competitive_intel",
   "messaging_effectiveness", "icp_signal"]

/-- Source provenance metadata of an insight (spec §3). -/
structure SourceMetadata where
  type : String
  id : String
  lead_id : Option String := none
  company_name : Option String := none
  extracted_quote : Option String := none
deriving DecidableEq, Repr

/-- The nested `validation` object stored on an insight payload. -/
structure ValidationInfo where
  status : String
  needs_validation : Bool
deriving DecidableEq, Repr

/-- Per-collection content counts (`BrainStatsResult` shape). -/
structure BrainStats where
  icp_rules_count : Nat
  templates_count : Nat
  handlers_count : Nat
  research_docs_count : Nat
  insights_count : Nat
deriving DecidableEq, Repr

/-- Stored brain payload (spec §3).  The identifier is stored under the
payload key `id`.  `stats` is the stored (possibly stale) counter block that
reads must not trust.  The embedding vector attached to a brain point is
irrelevant to every property below and is omitted. -/
structure Brain where
  id : String
  vertical : String
  name : String
  description : String
  status : BrainStatus
  stats : BrainStats
  created_at : String
  updated_at : String
deriving DecidableEq, Repr

/-- A point of the `brains` collection: Qdrant point id plus payload. -/
structure BrainPoint where
  pid : String
  brain : Brain
deriving DecidableEq, Repr

/-- Payload field lookup on a brain payload, as a Qdrant `FieldCondition`
reads it.  Only the keys the source filters on are stored fields; a filter
on any other key (in particular `brain_id`, which brain payloads do not
carry — the identifier is under `id`) matches nothing. -/
def Brain.field (b : Brain) : String → Option String
  | "id" => some b.id
  | "vertical" => some b.vertical
  | "status" => some b.status.toStr
  | "name" => some b.name
  | "description" => some b.description
  | _ => none

/-- A content point: any point of the five content collections.  Seeded
items use `fields`; insights additionally carry `source`, `confidence` and
the nested `validation` object. -/
structure CPoint where
  pid : String
  brain_id : String
  fields : List (String × String) := []
  source : Option SourceMetadata := none
  confidence : Option ℚ := none
  validation : Option ValidationInfo := none
  vector : Vec := []
deriving DecidableEq, Repr

/-- The vector store: the `brains` collection plus the named content
collections (`icp_rules`, `response_templates`, `objection_handlers`,
`market_research`, `insights`). -/
structure Store where
  brains : List BrainPoint
  collections : List (String × List CPoint)
deriving DecidableEq, Repr

/-- Lookup of the first association carrying a collection name. -/
def lookupColl : List (String × List CPoint) → String → List CPoint
  | [], _ => []
  | c :: cs, name => if c.1 == name then c.2 else lookupColl cs name

/-- Contents of a named collection (an unknown name reads as empty). -/
def Store.coll (st : Store) (name : String) : List CPoint :=
  lookupColl st.collections name

/-- Replace the contents of a named collection. -/
def Store.setColl (st : Store) (name : String) (pts : List CPoint) : Store :=
  if st.collections.any (fun c => c.1 == name) then
    { st with collections :=
        st.collections.map (fun c => if c.1 == name then (name, pts) else c) }
  else
    { st with collections := st.collections ++ [(name, pts)] }

/-- Qdrant upsert of one point into the `brains` collection: overwrite the
point with this point id if present, insert otherwise. -/
def upsertBrainPoint (ps : List BrainPoint) (pid : String) (b : Brain) :
    List BrainPoint :=
  if ps.any (fun p => p.pid == pid) then
    ps.map (fun p => if p.pid == pid then ⟨pid, b⟩ else p)
  else
    ps ++ [⟨pid, b⟩]

/-- Qdrant batch upsert into a content collection: each point overwrites the
stored point with its id or is inserted. -/
def upsertCPoints (pts : List CPoint) (newPts : List CPoint) : List CPoint :=
  newPts.foldl (fun acc p =>
    if acc.any (fun q => q.pid == p.pid) then
      acc.map (fun q => if q.pid == p.pid then p else q)
    else
      acc ++ [p]) pts

/-- `scroll` over the `brains` collection with a conjunction of
`FieldCondition(key, MatchValue(value))` filters and a limit. -/
def scrollBrains (st : Store) (conds : List (String × String)) (limit : Nat) :
    List BrainPoint :=
  (st.brains.filter (fun p =>
    conds.all (fun c => p.brain.field c.1 == some c.2))).take limit

/-- Errors raised as `ToolError`; each constructor stands for one raise site
and carries exactly the data its message interpolates. -/
inductive ToolError where
  | invalidBrainId (brain_id : String)
  | brainNotFound (brain_id : String)
  | invalidStatus (status : String)
  | invalidTransition (currentStatus newStatus : BrainStatus)
      (validTargets : List BrainStatus)
  | cannotSeedArchived (brain_id : String)
  | embeddingFailed (msg : String)
  | embeddingCountMismatch
  | contentTooShort
  | contentTooLong
  | invalidCategory (category : String)
  | invalidImportance
  | sourceRequired
  | sourceTypeRequired
  | sourceIdRequired
  | confirmRequired
  | cannotDeleteActive (brain_id : String)
deriving DecidableEq, Repr

/-- `_validate_brain_exists`: brain id format check, then a `scroll` of the
`brains` collection filtered on payload key `id`, limit 1; returns the first
payload or raises. -/
def _validate_brain_exists (st : Store) (brain_id : String) :
    Except ToolError Brain :=
  if validate_brain_id brain_id = false then
    Except.error (ToolError.invalidBrainId brain_id)
  else
    match scrollBrains st [("id", brain_id)] 1 with
    | [] => Except.error (ToolError.brainNotFound brain_id)
    | p :: _ => Except.ok p.brain

/-- `_validate_brain_seedable`: the brain must exist and must not be
archived. -/
def _validate_brain_seedable (st : Store) (brain_id : String) :
    Except ToolError Brain :=
  match _validate_brain_exists st brain_id with
  | Except.error e => Except.error e
  | Except.ok b =>
      if b.status = BrainStatus.archived then
        Except.error (ToolError.cannotSeedArchived brain_id)
      else
        Except.ok b

/-- A content item submitted for seeding: a dict with string values.  A
value's Python truthiness is modelled as "present and nonempty". -/
abbrev Item := List (String × String)

/-- `item.get(key)`: `none` models an absent key. -/
def itemGet (it : Item) (k : String) : Option String :=
  (it.find? (fun kv => kv.1 == k)).map (fun kv => kv.2)

/-- Python truthiness of `item.get(field)`: false for an absent key or an
empty value. -/
def truthy : Option String → Bool
  | none => false
  | some s => s != ""

/-- The best-effort display name
`item.get("name", item.get("topic", item.get("objection_text", f"item_\x7bidx\x7d")))`:
each default applies only when its key is absent. -/
def displayName (idx : Nat) (it : Item) : String :=
  match itemGet it "name" with
  | some v => v
  | none =>
    match itemGet it "topic" with
    | some v => v
    | none =>
      match itemGet it "objection_text" with
      | some v => v
      | none => s!"item_{idx}"

/-- An item that fails per-item validation: it lacks a truthy value for the
embed field or for the key field. -/
def itemInvalid (embed_field key_field : String) (it : Item) : Bool :=
  !(truthy (itemGet it embed_field)) || !(truthy (itemGet it key_field))

/-- A per-item seeding error (`SeedingError` model). -/
structure SeedingError where
  index : Nat
  name : String
  error : String
deriving DecidableEq, Repr

/-- The result of a seed call (`SeedingResult` model). -/
structure SeedingResult where
  brain_id : String
  collection : String
  seeded_count : Nat
  errors : List SeedingError
  message : String
deriving DecidableEq, Repr

/-- The per-item validation loop of `_seed_items_to_collection`, started at
index `idx`: an item missing a truthy value for the embed field, or else for
the key field, contributes a `SeedingError` carrying its original index, its
display name and `"Missing required field: <field>"`; a valid item
contributes `(index, item, str(embed text))`.  Both output lists keep the
iteration order. -/
def validateSeedItems (embed_field key_field : String) :
    Nat → List Item → List SeedingError × List (Nat × Item × String)
  | _, [] => ([], [])
  | idx, item :: rest =>
    let acc := validateSeedItems embed_field key_field (idx + 1) rest
    let item_name := displayName idx item
    let text := itemGet item embed_field
    if truthy text = false then
      (⟨idx, item_name, "Missing required field: " ++ embed_field⟩ :: acc.1, acc.2)
    else if truthy (itemGet item key_field) = false then
      (⟨idx, item_name, "Missing required field: " ++ key_field⟩ :: acc.1, acc.2)
    else
      (acc.1, (idx, item, text.getD "") :: acc.2)

/-- The batch-embedding loop: texts are taken 100 at a time (the provider's
batch ceiling) and embedded sequentially; the first failing chunk aborts the
rest. -/
def embedChunksLoop (eb : List String → Except String (List Vec)) :
    List String → Except String (List Vec)
  | [] => Except.ok []
  | t :: ts =>
    match eb ((t :: ts).take 100) with
    | Except.error e => Except.error e
    | Except.ok vs =>
      match embedChunksLoop eb ((t :: ts).drop 100) with
      | Except.error e => Except.error e
      | Except.ok rest => Except.ok (vs ++ rest)
termination_by l => l.length
decreasing_by
  simp only [List.length_drop, List.length_cons]
  omega

/-- The chunking the loop above performs, as a list: consecutive runs of at
most 100 texts, in order. -/
def chunksOf100 : List String → List (List String)
  | [] => []
  | t :: ts => (t :: ts).take 100 :: chunksOf100 ((t :: ts).drop 100)
termination_by l => l.length
decreasing_by
  simp only [List.length_drop, List.length_cons]
  omega

/-- The embed-field texts of the valid items of a batch, in order — the
input of the batch-embedding stage. -/
def seedTexts (embed_field key_field : String) (items : List Item) :
    List String :=
  (validateSeedItems embed_field key_field 0 items).2.map (fun t => t.2.2)

/-- The stored payload of one seeded point.  The Python payload is
`\x7b"brain_id": brain_id, **item, "created_at": ts, "updated_at": ts\x7d`, so an
item that itself carries a `brain_id` key overrides the scope value, and the
two timestamps always win.  The point id is
`generate_point_id(brain_id, str(item[key_field]))`. -/
def buildSeedPoint (brain_id key_field now : String) (item : Item) (v : Vec) :
    CPoint :=
  { pid := generate_point_id brain_id ((itemGet item key_field).getD ""),
    brain_id := (itemGet item "brain_id").getD brain_id,
    fields := item ++ [("created_at", now), ("updated_at", now)],
    vector := v }

/-- `_seed_items_to_collection`.  `eb` is the external embedding provider
(`embed_batch`); `now` the wall-clock write timestamp.  The returned store is
the store at return or raise time, so an error result proves no write
happened.  `embeddingCountMismatch` stands for the `IndexError` the source
would hit if the provider returned fewer vectors than texts. -/
def _seed_items_to_collection (st : Store)
    (eb : List String → Except String (List Vec)) (now : String)
    (brain_id : String) (items : List Item)
    (collection embed_field key_field : String) :
    Store × Except ToolError SeedingResult :=
  if items.isEmpty then
    (st, Except.ok ⟨brain_id, collection, 0, [], "No items to seed"⟩)
  else
    match _validate_brain_seedable st brain_id with
    | Except.error e => (st, Except.error e)
    | Except.ok _ =>
      let validated := validateSeedItems embed_field key_field 0 items
      let errors := validated.1
      let valid_items := validated.2
      if valid_items.isEmpty then
        (st, Except.ok ⟨brain_id, collection, 0, errors,
          s!"No valid items to seed. {errors.length} errors."⟩)
      else
        let texts_to_embed := valid_items.map (fun t => t.2.2)
        match embedChunksLoop eb texts_to_embed with
        | Except.error e => (st, Except.error (ToolError.embeddingFailed e))
        | Except.ok all_embeddings =>
          if all_embeddings.length = valid_items.length then
            let points := (valid_items.zip all_embeddings).map (fun pe =>
              buildSeedPoint brain_id key_field now pe.1.2.1 pe.2)
            let message :=
              if errors.length > 0 then
                s!"Seeded {points.length} items with {errors.length} errors"
              else
                s!"Successfully seeded {points.length} items"
            (st.setColl collection (upsertCPoints (st.coll collection) points),
             Except.ok ⟨brain_id, collection, points.length, errors, message⟩)
          else
            (st, Except.error ToolError.embeddingCountMismatch)

/-- `seed_icp_rules`: delegates with collection `icp_rules`, embed field
`criteria`, key field `name`. -/
def seed_icp_rules (st : Store) (eb : List String → Except String (List Vec))
    (now brain_id : String) (rules : List Item) :
    Store × Except ToolError SeedingResult :=
  _seed_items_to_collection st eb now brain_id rules "icp_rules" "criteria" "name"

/-- `seed_templates`: collection `response_templates`, embed field
`template_text`, key field `name`. -/
def seed_templates (st : Store) (eb : List String → Except String (List Vec))
    (now brain_id : String) (templates : List Item) :
    Store × Except ToolError SeedingResult :=
  _seed_items_to_collection st eb now brain_id templates "response_templates"
    "template_text" "name"

/-- `seed_handlers`: collection `objection_handlers`, embed field and key
field both `objection_text`. -/
def seed_handlers (st : Store) (eb : List String → Except String (List Vec))
    (now brain_id : String) (handlers : List Item) :
    Store × Except ToolError SeedingResult :=
  _seed_items_to_collection st eb now brain_id handlers "objection_handlers"
    "objection_text" "objection_text"

/-- `seed_research`: collection `market_research`, embed field `content`,
key field `topic`. -/
def seed_research (st : Store) (eb : List String → Except String (List Vec))
    (now brain_id : String) (documents : List Item) :
    Store × Except ToolError SeedingResult :=
  _seed_items_to_collection st eb now brain_id documents "market_research"
    "content" "topic"

/-- Result of `update_brain_status` (the source also interpolates a
human-readable `message` from these same fields; it is omitted here). -/
structure TransitionResult where
  brain_id : String
  previous_status : BrainStatus
  new_status : BrainStatus
  deactivated_brain_id : Option String
deriving DecidableEq, Repr

/-- One iteration of the cascade-archive loop of `update_brain_status`:
any scrolled brain other than the target (with a nonempty payload id) is
rewritten to `archived` at its recomputed point id, and its id is recorded
as the deactivated brain. -/
def archiveSiblingStep (now brain_id : String)
    (acc : List BrainPoint × Option String) (p : BrainPoint) :
    List BrainPoint × Option String :=
  let other := p.brain.id
  if other != "" && other != brain_id then
    (upsertBrainPoint acc.1 (generate_point_id other other)
      { p.brain with status := BrainStatus.archived, updated_at := now },
     some other)
  else acc

/-- `update_brain_status`.  Validates the id format and the status string,
fetches the current record, checks the state machine; when activating, any
other currently active brain of the same vertical found by the scroll
(limit 10) is rewritten to `archived` (its point id recomputed with
`generate_point_id(other, other)`), the last such id being returned as
`deactivated_brain_id`; finally the target brain is upserted with the new
status.  Re-embedding of the brain description text only affects the point
vector, which the brain model omits. -/
def update_brain_status (st : Store) (now : String) (brain_id status : String) :
    Store × Except ToolError TransitionResult :=
  if validate_brain_id brain_id = false then
    (st, Except.error (ToolError.invalidBrainId brain_id))
  else
    match parseBrainStatus status with
    | none => (st, Except.error (ToolError.invalidStatus status))
    | some new_status =>
      match _validate_brain_exists st brain_id with
      | Except.error e => (st, Except.error e)
      | Except.ok brain_data =>
        let current_status := brain_data.status
        let vertical := brain_data.vertical
        if validate_status_transition current_status new_status = false then
          (st, Except.error (ToolError.invalidTransition current_status new_status
            (VALID_TRANSITIONS current_status)))
        else
          let afterSiblings :=
            if new_status = BrainStatus.active then
              (scrollBrains st [("vertical", vertical), ("status", "active")]
                10).foldl (archiveSiblingStep now brain_id)
                (st.brains, (none : Option String))
            else (st.brains, none)
          let brains2 := upsertBrainPoint afterSiblings.1
            (generate_point_id brain_id brain_id)
            { brain_data with status := new_status, updated_at := now }
          ({ st with brains := brains2 },
           Except.ok ⟨brain_id, current_status, new_status, afterSiblings.2⟩)

/-- The five content collections cascaded over by `delete_brain`, paired
with their display names. -/
def contentCollections : List (String × String) :=
  [("icp_rules", "icp_rules"), ("response_templates", "response_templates"),
   ("objection_handlers", "objection_handlers"),
   ("market_research", "market_research"), ("insights", "insights")]

/-- Result of `delete_brain`; `total_deleted` is the aggregate count the
source interpolates into its message. -/
structure DeletionReport where
  brain_id : String
  deleted_content : List (String × Nat)
  total_deleted : Nat
deriving DecidableEq, Repr

/-- One iteration of the cascade loop of `delete_brain`: scroll the point
ids of the collection scoped to `brain_id` (limit 10000), record the count,
and delete those points when there are any. -/
def deleteCollectionStep (brain_id : String)
    (acc : Store × List (String × Nat)) (c : String × String) :
    Store × List (String × Nat) :=
  let pts := acc.1.coll c.1
  let point_ids := ((pts.filter (fun p => p.brain_id == brain_id)).take
    10000).map (fun p => p.pid)
  let count := point_ids.length
  let st2 :=
    if count > 0 then
      acc.1.setColl c.1 (pts.filter (fun p => !(point_ids.contains p.pid)))
    else acc.1
  (st2, acc.2 ++ [(c.2, count)])

/-- `delete_brain`.  Requires `confirm`; the brain must exist and must not
be active.  Then for each of the five content collections the point ids
scoped to `brain_id` are scrolled (limit 10000) and deleted, recording the
per-collection count; finally the brain record found by the `id` scroll is
deleted. -/
def delete_brain (st : Store) (brain_id : String) (confirm : Bool) :
    Store × Except ToolError DeletionReport :=
  if confirm = false then
    (st, Except.error ToolError.confirmRequired)
  else
    match _validate_brain_exists st brain_id with
    | Except.error e => (st, Except.error e)
    | Except.ok brain_data =>
      if brain_data.status = BrainStatus.active then
        (st, Except.error (ToolError.cannotDeleteActive brain_id))
      else
        let step := contentCollections.foldl (deleteCollectionStep brain_id)
          (st, ([] : List (String × Nat)))
        let finalBrains :=
          match scrollBrains step.1 [("id", brain_id)] 1 with
          | [] => step.1.brains
          | p :: _ => step.1.brains.filter (fun q => !(q.pid == p.pid))
        let total := (step.2.map (fun e => e.2)).sum
        ({ step.1 with brains := finalBrains },
         Except.ok ⟨brain_id, step.2, total⟩)

/-- A read of one content collection by the external vector store; `none`
models the scroll raising (collection missing or store failure), which the
stats paths degrade to a zero count. -/
abbrev CollectionReader := String → Option (List CPoint)

/-- The always-successful reader over a concrete store state. -/
def Store.reader (st : Store) : CollectionReader :=
  fun name => some (st.coll name)

/-- One count of `_calculate_brain_stats_internal`: scroll the collection
filtered on `brain_id`, limit 1000, counting the points; a failed read
degrades to 0. -/
def countForCollection (reader : CollectionReader) (brain_id name : String) :
    Nat :=
  match reader name with
  | none => 0
  | some pts => ((pts.filter (fun p => p.brain_id == brain_id)).take 1000).length

/-- `_calculate_brain_stats_internal`: live per-collection counts scoped to
`brain_id`, one scroll per content collection. -/
def _calculate_brain_stats_internal (reader : CollectionReader)
    (brain_id : String) : BrainStats :=
  { icp_rules_count := countForCollection reader brain_id "icp_rules",
    templates_count := countForCollection reader brain_id "response_templates",
    handlers_count := countForCollection reader brain_id "objection_handlers",
    research_docs_count := countForCollection reader brain_id "market_research",
    insights_count := countForCollection reader brain_id "insights" }

/-- The brain returned by `get_brain`/`list_brains`: the stored payload with
the `id` key renamed to `brain_id` (falling back to the point id when the
payload id is missing or empty) and `stats` overridden by the live counts. -/
structure BrainOut where
  brain_id : String
  vertical : String
  name : String
  description : String
  status : BrainStatus
  created_at : String
  updated_at : String
  stats : BrainStats
deriving DecidableEq, Repr

/-- Shared output mapping of `get_brain` and `list_brains`. -/
def brainToOut (reader : CollectionReader) (p : BrainPoint) : BrainOut :=
  let resolved := if p.brain.id != "" then p.brain.id else p.pid
  { brain_id := resolved,
    vertical := p.brain.vertical,
    name := p.brain.name,
    description := p.brain.description,
    status := p.brain.status,
    created_at := p.brain.created_at,
    updated_at := p.brain.updated_at,
    stats := _calculate_brain_stats_internal reader resolved }

/-- The scroll issued by `get_brain`: by exact `brain_id` (filtered on
payload key `brain_id`), else the active brain of a vertical, else the
first active brain. -/
def getBrainResults (st : Store) (brain_id vertical : Option String) :
    List BrainPoint :=
  match brain_id with
  | some bid => scrollBrains st [("brain_id", bid)] 1
  | none =>
    match vertical with
    | some v => scrollBrains st [("vertical", v), ("status", "active")] 1
    | none => scrollBrains st [("status", "active")] 1

/-- `get_brain`: `none` when the scroll matches nothing, else the first
match mapped through `brainToOut`.  The stored stats block is never
returned: `stats` is recomputed through `reader`. -/
def get_brain (st : Store) (reader : CollectionReader)
    (brain_id vertical : Option String) : Option BrainOut :=
  match getBrainResults st brain_id vertical with
  | [] => none
  | p :: _ => some (brainToOut reader p)

/-- `list_brains`: scroll of the `brains` collection, limit 100, each item
mapped like `get_brain`, stats recomputed per brain. -/
def list_brains (st : Store) (reader : CollectionReader) : List BrainOut :=
  (st.brains.take 100).map (fun p => brainToOut reader p)

/-- Modelled from the spec: result of the quality gate (`run_quality_gate`
lives in the missing `quality_gates.py`; its result fields are those the
caller reads: `passed`, `is_duplicate`, `duplicate_id`, `similarity_score`,
`rejection_reason`, `confidence_score`, `requires_validation`). -/
structure GateResult where
  passed : Bool
  is_duplicate : Bool := false
  duplicate_id : Option String := none
  similarity_score : Option ℚ := none
  rejection_reason : Option String := none
  confidence_score : ℚ := 0
  requires_validation : Bool := false
deriving DecidableEq, Repr

/-- Modelled from the spec: the gate's collaborators and configuration
(spec §4.3 and §9: the confidence policy table, the vector-store similarity,
the query embedder, and the configurable thresholds). -/
structure GateConfig where
  confidence_of : Importance → String → ℚ
  sim : Vec → Vec → ℚ
  embed_q : String → Vec
  min_content_length : Nat
  confidence_floor : ℚ
  validation_threshold : ℚ

/-- Modelled from the spec: the duplicate-similarity threshold of spec §4.3
step 2. -/
def DUPLICATE_SIMILARITY_THRESHOLD : ℚ := 85 / 100

/-- The top scored match of a nearest-neighbor query over a list of points:
the point whose vector scores highest against the query vector (earlier
points win ties). -/
def topMatch (sim : Vec → Vec → ℚ) (v : Vec) : List CPoint → Option (String × ℚ)
  | [] => none
  | p :: ps =>
    match topMatch sim v ps with
    | none => some (p.pid, sim v p.vector)
    | some best =>
      if sim v p.vector ≥ best.2 then some (p.pid, sim v p.vector) else some best

/-- Modelled from the spec: steps 3 and 4 of the gate — basic acceptability
(length, confidence floor) rejects with a reason; otherwise accepted with
`requires_validation` true when importance is high or confidence is below
the brain's validation threshold. -/
def gateAcceptOrReject (cfg : GateConfig) (confidence : ℚ) (content : String)
    (importance : Importance) : GateResult :=
  if content.length < cfg.min_content_length then
    { passed := false, rejection_reason := some "content too short",
      confidence_score := confidence }
  else if confidence < cfg.confidence_floor then
    { passed := false, rejection_reason := some "confidence below threshold",
      confidence_score := confidence }
  else
    { passed := true, confidence_score := confidence,
      requires_validation :=
        (importance == Importance.high) ||
          decide (confidence < cfg.validation_threshold) }

/-- Modelled from the spec: `run_quality_gate` (spec §4.3).  Step 1 computes
the confidence score from importance and source type; step 2 embeds the
content and queries the existing insights scoped to `brain_id` — a top match
with similarity ≥ 0.85 returns `duplicate` carrying the existing insight's
id and the measured similarity; steps 3–4 as above. -/
def run_quality_gate (cfg : GateConfig) (insights : List CPoint)
    (brain_id content category : String) (importance : Importance)
    (source : SourceMetadata) : GateResult :=
  let confidence := cfg.confidence_of importance source.type
  let v := cfg.embed_q content
  match topMatch cfg.sim v (insights.filter (fun p => p.brain_id == brain_id)) with
  | some best =>
    if best.2 ≥ DUPLICATE_SIMILARITY_THRESHOLD then
      { passed := false, is_duplicate := true, duplicate_id := some best.1,
        similarity_score := some best.2, confidence_score := confidence }
    else gateAcceptOrReject cfg confidence content importance
  | none => gateAcceptOrReject cfg confidence content importance

/-- Result of `add_insight`.  The duplicate branch of the source carries the
measured similarity inside its `reason` string; it is kept here as the
`similarity` field. -/
structure AddInsightOut where
  status : String
  id : Option String := none
  existing_id : Option String := none
  similarity : Option ℚ := none
  reason : Option String := none
  confidence : Option ℚ := none
  needs_validation : Option Bool := none
deriving DecidableEq, Repr

/-- `add_insight`.  Input validation, then the quality gate: `duplicate` and
`rejected` come back as ordinary results (`Except.ok`), not raises; only on
`accepted` is a new insight point built (fresh UUID `fresh_id`, embedded
content) and upserted into the `insights` collection, its nested
`validation` object always written with status `"pending"` and
`needs_validation` from the gate. -/
def add_insight (cfg : GateConfig) (embed_doc : String → Vec)
    (fresh_id : String) (st : Store)
    (brain_id content category importance : String)
    (source : Option SourceMetadata) : Store × Except ToolError AddInsightOut :=
  if validate_brain_id brain_id = false then
    (st, Except.error (ToolError.invalidBrainId brain_id))
  else if content.length < 10 then
    (st, Except.error ToolError.contentTooShort)
  else if content.length > 5000 then
    (st, Except.error ToolError.contentTooLong)
  else if (insightCategories.contains category) = false then
    (st, Except.error (ToolError.invalidCategory category))
  else
    match parseImportance importance with
    | none => (st, Except.error ToolError.invalidImportance)
    | some imp =>
      match source with
      | none => (st, Except.error ToolError.sourceRequired)
      | some src =>
        if src.type == "" then (st, Except.error ToolError.sourceTypeRequired)
        else if src.id == "" then (st, Except.error ToolError.sourceIdRequired)
        else
          let gate := run_quality_gate cfg (st.coll "insights") brain_id content
            category imp src
          if gate.passed = false then
            if gate.is_duplicate then
              (st, Except.ok
                { status := "duplicate",
                  existing_id := gate.duplicate_id,
                  similarity := gate.similarity_score })
            else
              (st, Except.ok
                { status := "rejected",
                  reason := gate.rejection_reason })
          else
            let p : CPoint :=
              { pid := fresh_id,
                brain_id := brain_id,
                fields := [("content", content), ("category", category),
                  ("importance", importance)],
                source := some src,
                confidence := some gate.confidence_score,
                validation := some ⟨ValidationStatus.pending.toStr,
                  gate.requires_validation⟩,
                vector := embed_doc content }
            (st.setColl "insights" (upsertCPoints (st.coll "insights") [p]),
             Except.ok
               { status := "created", id := some fresh_id,
                 confidence := some gate.confidence_score,
                 needs_validation := some gate.requires_validation })

/-! ### Concrete fixtures

A small store used to evaluate the theorems below on concrete inputs.  The
stored `stats` counters are deliberately stale (they disagree with the
actual collection contents) so that reads trusting them would be caught. -/

/-- Deliberately stale stored counters. -/
def statsStale : BrainStats := ⟨7, 7, 7, 7, 7⟩

/-- An active fintech brain. -/
def brainActiveFx : Brain :=
  ⟨"brain_fintech_v1", "fintech", "FinBrain", "first fintech brain",
   BrainStatus.active, statsStale, "t0", "t0"⟩

/-- A draft fintech brain (same vertical as the active one). -/
def brainDraftFx : Brain :=
  ⟨"brain_fintech_v2", "fintech", "FinBrain2", "second fintech brain",
   BrainStatus.draft, statsStale, "t0", "t0"⟩

/-- An archived brain in its own vertical. -/
def brainArchivedFx : Brain :=
  ⟨"brain_legacy_v1", "legacy", "Legacy", "retired brain",
   BrainStatus.archived, statsStale, "t0", "t0"⟩

/-- An ICP rule point owned by the active fintech brain. -/
def icpPointFx : CPoint :=
  { pid := "p1", brain_id := "brain_fintech_v1", fields := [("name", "r1")] }

/-- An ICP rule point owned by the archived brain. -/
def icpPointLegacyFx : CPoint :=
  { pid := "p2", brain_id := "brain_legacy_v1", fields := [("name", "r2")] }

/-- An insight already stored for the active fintech brain. -/
def insightFx : CPoint :=
  { pid := "ins-1", brain_id := "brain_fintech_v1",
    fields := [("content", "an existing insight")], vector := [1] }

/-- The fixture store. -/
def storeFx : Store :=
  { brains :=
      [⟨generate_point_id "brain_fintech_v1" "brain_fintech_v1", brainActiveFx⟩,
       ⟨generate_point_id "brain_fintech_v2" "brain_fintech_v2", brainDraftFx⟩,
       ⟨generate_point_id "brain_legacy_v1" "brain_legacy_v1", brainArchivedFx⟩],
    collections :=
      [("icp_rules", [icpPointFx, icpPointLegacyFx]),
       ("response_templates", []),
       ("objection_handlers", []),
       ("market_research", []),
       ("insights", [insightFx])] }

/-- An embedding provider that always succeeds, returning one vector per
text. -/
def embOkFx : List String → Except String (List Vec) :=
  fun ts => Except.ok (ts.map (fun _ => [1]))

/-- An embedding provider that always fails. -/
def embBadFx : List String → Except String (List Vec) :=
  fun _ => Except.error "provider down"

/-- A two-item batch: one valid ICP rule, one missing its `criteria`. -/
def seedItemsFx : List Item :=
  [[("name", "a"), ("criteria", "c")], [("name", "b")]]

/-- A gate configuration with a total-confidence policy and a constant 0.9
similarity, so any brain with a stored insight reports a duplicate. -/
def gateCfgFx : GateConfig :=
  { confidence_of := fun _ _ => 1,
    sim := fun _ _ => 9 / 10,
    embed_q := fun _ => [],
    min_content_length := 0,
    confidence_floor := 0,
    validation_threshold := 0 }

/-- A collection reader whose `icp_rules` scroll fails, reading the fixture
store otherwise. -/
def readerFailFx : CollectionReader :=
  fun name => if name == "icp_rules" then none else storeFx.reader name

/-- A content point scoped to the archived brain whose point id is `i`
letters long, so distinct indices give distinct point ids. -/
def bigPt (i : Nat) : CPoint :=
  { pid := String.mk (List.replicate i 'a'), brain_id := "brain_legacy_v1" }

/-- 10001 content points scoped to the archived brain: one more than the
single limit-10000 scroll of the deletion cascade can return. -/
def bigPts : List CPoint := (List.range 10001).map bigPt

/-- A store holding the archived brain and its 10001 `icp_rules` points. -/
def bigStoreFx : Store :=
  { brains :=
      [⟨generate_point_id "brain_legacy_v1" "brain_legacy_v1",
        brainArchivedFx⟩],
    collections :=
      [("icp_rules", bigPts),
       ("response_templates", []),
       ("objection_handlers", []),
       ("market_research", []),
       ("insights", [])] }

/-- What the cascade leaves of `bigPts`: the points whose id is not among
the 10000 ids its single scroll returns. -/
def bigSurvivors : List CPoint :=
  bigPts.filter (fun p =>
    !((((List.range 10000).map bigPt).map (fun q => q.pid)).contains p.pid))

/-! ### Shared lemmas -/

/-- Round trip between a status and its stored string. -/
lemma parse_toStr (s : BrainStatus) : parseBrainStatus s.toStr = some s := by
  cases s <;> rfl

/-- A filter whose predicate selects exactly one element of a duplicate-free
list yields that singleton. -/
lemma filter_singleton_of_unique {α : Type _} {l : List α} {p : α → Bool}
    {a : α} (hnd : l.Nodup) (ha : a ∈ l) (hpa : p a = true)
    (huniq : ∀ x ∈ l, p x = true → x = a) :
    l.filter p = [a] := by
  induction l with
  | nil => cases ha
  | cons b t ih =>
    rcases List.nodup_cons.mp hnd with ⟨hbt, hndt⟩
    by_cases hb : p b = true
    · have hba : b = a := huniq b (List.mem_cons_self b t) hb
      subst hba
      have ht : t.filter p = [] := by
        refine List.filter_eq_nil_iff.mpr (fun x hx hpx => ?_)
        exact hbt (huniq x (List.mem_cons_of_mem _ hx) hpx ▸ hx)
      simp [List.filter_cons, hb, ht]
    · have hat : a ∈ t := by
        rcases List.mem_cons.mp ha with h | h
        · exact absurd (h ▸ hpa) hb
        · exact h
      have hrest := ih hndt hat
        (fun x hx hpx => huniq x (List.mem_cons_of_mem _ hx) hpx)
      simp [List.filter_cons, hb, hrest]

/-- Membership in a brains scroll: the point is in the store and satisfies
every filter condition. -/
lemma mem_scrollBrains {st : Store} {conds : List (String × String)}
    {limit : Nat} {q : BrainPoint} (h : q ∈ scrollBrains st conds limit) :
    q ∈ st.brains ∧ ∀ c ∈ conds, q.brain.field c.1 = some c.2 := by
  unfold scrollBrains at h
  have hf := List.mem_of_mem_take h
  rcases List.mem_filter.mp hf with ⟨hmem, hcond⟩
  refine ⟨hmem, fun c hc => ?_⟩
  have := List.all_eq_true.mp hcond c hc
  simpa using this

/-- The `id`-filtered scroll of a store whose payload ids are duplicate-free
finds exactly the point carrying that id. -/
lemma scrollBrains_id_singleton {st : Store} {p : BrainPoint}
    (hids : (st.brains.map (fun q => q.brain.id)).Nodup)
    (hp : p ∈ st.brains) :
    scrollBrains st [("id", p.brain.id)] 1 = [p] := by
  have hnd : st.brains.Nodup := List.Nodup.of_map _ hids
  have hfilter : st.brains.filter
      (fun q => [("id", p.brain.id)].all
        (fun c => q.brain.field c.1 == some c.2)) = [p] := by
    refine filter_singleton_of_unique hnd hp ?_ ?_
    · simp [Brain.field]
    · intro x hx hpx
      simp [Brain.field] at hpx
      exact List.inj_on_of_nodup_map hids hx hp hpx
  unfold scrollBrains
  rw [hfilter]
  rfl

/-- Auxiliary: replacing the matching association yields the replaced
entry on lookup. -/
lemma lookupColl_map_replace (cs : List (String × List CPoint)) (name : String)
    (pts : List CPoint) (h : cs.any (fun c => c.1 == name) = true) :
    lookupColl (cs.map (fun c => if c.1 == name then (name, pts) else c))
      name = pts := by
  induction cs with
  | nil => simp at h
  | cons c cs ih =>
    by_cases hc : (c.1 == name) = true
    · simp [lookupColl, hc]
    · have h2 : cs.any (fun x => x.1 == name) = true := by
        simpa [List.any_cons, hc] using h
      have := ih h2
      simp [lookupColl, hc] at this ⊢
      exact this

/-- Auxiliary: replacing the association of one name leaves the lookup of
any other name unchanged. -/
lemma lookupColl_map_replace_other (cs : List (String × List CPoint))
    (n m : String) (pts : List CPoint) (h : m ≠ n) :
    lookupColl (cs.map (fun c => if c.1 == n then (n, pts) else c)) m =
      lookupColl cs m := by
  induction cs with
  | nil => rfl
  | cons c cs ih =>
    by_cases hcn : (c.1 == n) = true
    · have hc1 : c.1 = n := by simpa using hcn
      have := ih
      simp [lookupColl, hcn, hc1, Ne.symm h] at this ⊢
      exact this
    · by_cases hcm : (c.1 == m) = true
      · simp [lookupColl, hcn, hcm]
      · have := ih
        simp [lookupColl, hcn, hcm] at this ⊢
        exact this

/-- Auxiliary: appending an association for a fresh name does not change the
lookup of any other name. -/
lemma lookupColl_append_single_other (cs : List (String × List CPoint))
    (n m : String) (pts : List CPoint) (h : m ≠ n) :
    lookupColl (cs ++ [(n, pts)]) m = lookupColl cs m := by
  induction cs with
  | nil => simp [lookupColl, Ne.symm h]
  | cons c cs ih =>
    by_cases hcm : (c.1 == m) = true
    · simp [lookupColl, hcm]
    · simp [lookupColl, hcm, ih]

/-- Auxiliary: when no association matches, lookup continues in the
appended tail. -/
lemma lookupColl_append_of_none (cs ds : List (String × List CPoint))
    (name : String) (h : cs.any (fun c => c.1 == name) = false) :
    lookupColl (cs ++ ds) name = lookupColl ds name := by
  induction cs with
  | nil => rfl
  | cons c cs ih =>
    have hc : (c.1 == name) = false := by
      rcases List.any_eq_false.mp h with hall
      simpa using hall c (List.mem_cons_self _ _)
    have h2 : cs.any (fun c => c.1 == name) = false := by
      rcases List.any_cons .. ▸ h with h3
      simpa [hc] using h3
    simp [lookupColl, hc, ih h2]

/-- Reading a collection just written yields the written points. -/
lemma Store.coll_setColl_same (st : Store) (name : String)
    (pts : List CPoint) : (st.setColl name pts).coll name = pts := by
  unfold Store.setColl Store.coll
  by_cases h : st.collections.any (fun c => c.1 == name) = true
  · rw [if_pos h]
    exact lookupColl_map_replace st.collections name pts h
  · rw [if_neg h]
    simp only []
    rw [lookupColl_append_of_none _ _ _ (Bool.not_eq_true _ ▸ h)]
    simp [lookupColl]

/-- Writing one collection leaves every other collection unchanged. -/
lemma Store.coll_setColl_other (st : Store) (n m : String)
    (pts : List CPoint) (h : m ≠ n) :
    (st.setColl n pts).coll m = st.coll m := by
  unfold Store.setColl Store.coll
  by_cases hany : st.collections.any (fun c => c.1 == n) = true
  · rw [if_pos hany]
    exact lookupColl_map_replace_other st.collections n m pts h
  · rw [if_neg hany]
    exact lookupColl_append_single_other st.collections n m pts h

/-- Writing a content collection does not touch the brains collection. -/
lemma Store.brains_setColl (st : Store) (name : String) (pts : List CPoint) :
    (st.setColl name pts).brains = st.brains := by
  unfold Store.setColl
  split <;> rfl

/-- If every record carrying the target id is archived, the seedable check
fails. -/
lemma seedable_fails_of_archived {st : Store} {bid : String}
    (hall : ∀ p ∈ st.brains, p.brain.id = bid →
      p.brain.status = BrainStatus.archived) :
    ∃ e, _validate_brain_seedable st bid = Except.error e := by
  unfold _validate_brain_seedable _validate_brain_exists
  by_cases hf : validate_brain_id bid = false
  · exact ⟨ToolError.invalidBrainId bid, by simp [hf]⟩
  · rw [if_neg hf]
    cases hscroll : scrollBrains st [("id", bid)] 1 with
    | nil => exact ⟨ToolError.brainNotFound bid, rfl⟩
    | cons p rest =>
      have hpmem : p ∈ scrollBrains st [("id", bid)] 1 := by
        rw [hscroll]; exact List.mem_cons_self p rest
      rcases mem_scrollBrains hpmem with ⟨hmem, hcond⟩
      have hid : p.brain.id = bid := by
        have := hcond ("id", bid) (List.mem_singleton.mpr rfl)
        simpa [Brain.field] using this
      have harch := hall p hmem hid
      exact ⟨ToolError.cannotSeedArchived bid, by simp [harch]⟩

/-! ### Claims -/

/-- C9: for every brain id (archived, nonexistent or malformed included) and
every store and embedding provider, each of the four seed operations called
with an empty items list returns `seeded_count = 0`, no errors and the
message "No items to seed" with the store unchanged — the result is the
same constant whatever the store and the provider, so neither is
consulted. -/
theorem seed_empty_items_shortcircuit (st : Store)
    (eb : List String → Except String (List Vec)) (now brain_id : String) :
    seed_icp_rules st eb now brain_id [] =
      (st, Except.ok ⟨brain_id, "icp_rules", 0, [], "No items to seed"⟩) ∧
    seed_templates st eb now brain_id [] =
      (st, Except.ok ⟨brain_id, "response_templates", 0, [], "No items to seed"⟩) ∧
    seed_handlers st eb now brain_id [] =
      (st, Except.ok ⟨brain_id, "objection_handlers", 0, [], "No items to seed"⟩) ∧
    seed_research st eb now brain_id [] =
      (st, Except.ok ⟨brain_id, "market_research", 0, [], "No items to seed"⟩) := by
  exact ⟨rfl, rfl, rfl, rfl⟩

/-- C7 counterexample: seeding an empty items list into an archived brain
returns a successful result, not an error, even though the brain exists and
the seedable precondition fails — the claim "the call raises an error" is
false for the empty-list call. -/
theorem seed_archived_empty_returns_ok :
    _seed_items_to_collection storeFx embBadFx "t1" "brain_legacy_v1" []
        "icp_rules" "criteria" "name" =
      (storeFx,
       Except.ok ⟨"brain_legacy_v1", "icp_rules", 0, [], "No items to seed"⟩) ∧
    _validate_brain_seedable storeFx "brain_legacy_v1" =
      Except.error (ToolError.cannotSeedArchived "brain_legacy_v1") := by
  exact ⟨rfl, rfl⟩

/-- C7 (amended: a seed call with at least one item): when every stored
record carrying the target brain id is archived — which covers both a
nonexistent brain and an archived one — a seed call with a nonempty items
list returns an error with the store unchanged, for every embedding
provider (so no embedding work and no write occurs); and whatever the items
list, the store is unchanged, so no content is ever added to an archived
brain through seeding. -/
theorem seed_rejects_archived_or_missing_brain (st : Store)
    (eb : List String → Except String (List Vec))
    (now bid coll ef kf : String) (items : List Item)
    (hall : ∀ p ∈ st.brains, p.brain.id = bid →
      p.brain.status = BrainStatus.archived) :
    (items ≠ [] → ∃ e, _seed_items_to_collection st eb now bid items coll ef kf =
      (st, Except.error e)) ∧
    (_seed_items_to_collection st eb now bid items coll ef kf).1 = st := by
  rcases seedable_fails_of_archived hall with ⟨e, he⟩
  cases items with
  | nil => exact ⟨fun h => absurd rfl h, rfl⟩
  | cons it tl =>
    constructor
    · intro _
      exact ⟨e, by simp [_seed_items_to_collection, he]⟩
    · simp [_seed_items_to_collection, he]

/-- C7 witness: the amended guard evaluated on the fixture store, seeding
one item into the archived brain. -/
theorem seed_rejects_archived_witness :
    (∀ p ∈ storeFx.brains, p.brain.id = "brain_legacy_v1" →
      p.brain.status = BrainStatus.archived) ∧
    (([[("name", "x")]] : List Item) ≠ [] →
      ∃ e, _seed_items_to_collection storeFx embBadFx "t1" "brain_legacy_v1"
        [[("name", "x")]] "icp_rules" "criteria" "name" =
        (storeFx, Except.error e)) ∧
    (_seed_items_to_collection storeFx embBadFx "t1" "brain_legacy_v1"
      [[("name", "x")]] "icp_rules" "criteria" "name").1 = storeFx := by
  have h : ∀ p ∈ storeFx.brains, p.brain.id = "brain_legacy_v1" →
      p.brain.status = BrainStatus.archived := by decide
  have main := seed_rejects_archived_or_missing_brain storeFx embBadFx "t1"
    "brain_legacy_v1" "icp_rules" "criteria" "name" [[("name", "x")]] h
  exact ⟨h, main.1, main.2⟩

/-- C2: with a stored brain record `p`, any attempted transition whose
target is not a legal target of the current status is rejected with a
`Conflict` error that carries the attempted pair and exactly the legal
target list of the current status, and the store is returned unchanged (no
status write occurs).  Activating an already-active brain and archiving a
draft are instances. -/
theorem transition_rejected_outside_legal_set (st : Store) (now bid : String)
    (p : BrainPoint) (att : BrainStatus)
    (hfmt : validate_brain_id bid = true)
    (hfind : scrollBrains st [("id", bid)] 1 = [p])
    (hillegal : att ∉ VALID_TRANSITIONS p.brain.status) :
    update_brain_status st now bid att.toStr =
      (st, Except.error (ToolError.invalidTransition p.brain.status att
        (VALID_TRANSITIONS p.brain.status))) := by
  unfold update_brain_status _validate_brain_exists
  simp [hfmt, parse_toStr, hfind, validate_status_transition, hillegal]

/-- C2 witness: on the fixture store, activating the already-active brain
and archiving the draft brain are both rejected with the legal-target list
of the current status. -/
theorem transition_rejected_witness :
    (validate_brain_id "brain_fintech_v1" = true ∧
     scrollBrains storeFx [("id", "brain_fintech_v1")] 1 =
       [⟨generate_point_id "brain_fintech_v1" "brain_fintech_v1", brainActiveFx⟩] ∧
     BrainStatus.active ∉ VALID_TRANSITIONS brainActiveFx.status ∧
     update_brain_status storeFx "t1" "brain_fintech_v1"
         BrainStatus.active.toStr =
       (storeFx, Except.error (ToolError.invalidTransition BrainStatus.active
         BrainStatus.active [BrainStatus.archived]))) ∧
    (validate_brain_id "brain_fintech_v2" = true ∧
     scrollBrains storeFx [("id", "brain_fintech_v2")] 1 =
       [⟨generate_point_id "brain_fintech_v2" "brain_fintech_v2", brainDraftFx⟩] ∧
     BrainStatus.archived ∉ VALID_TRANSITIONS brainDraftFx.status ∧
     update_brain_status storeFx "t1" "brain_fintech_v2"
         BrainStatus.archived.toStr =
       (storeFx, Except.error (ToolError.invalidTransition BrainStatus.draft
         BrainStatus.archived [BrainStatus.active]))) := by
  constructor
  · refine ⟨by decide, by decide, by decide, ?_⟩
    exact transition_rejected_outside_legal_set storeFx "t1" "brain_fintech_v1"
      ⟨generate_point_id "brain_fintech_v1" "brain_fintech_v1", brainActiveFx⟩
      BrainStatus.active (by decide) (by decide) (by decide)
  · refine ⟨by decide, by decide, by decide, ?_⟩
    exact transition_rejected_outside_legal_set storeFx "t1" "brain_fintech_v2"
      ⟨generate_point_id "brain_fintech_v2" "brain_fintech_v2", brainDraftFx⟩
      BrainStatus.archived (by decide) (by decide) (by decide)

/-- Validation loop, step equation: embed field missing. -/
lemma validateSeedItems_cons_ef {ef kf : String} {it : Item} {n : Nat}
    {tl : List Item} (h1 : truthy (itemGet it ef) = false) :
    validateSeedItems ef kf n (it :: tl) =
      (⟨n, displayName n it, "Missing required field: " ++ ef⟩ ::
        (validateSeedItems ef kf (n + 1) tl).1,
       (validateSeedItems ef kf (n + 1) tl).2) := by
  simp [validateSeedItems, h1]

/-- Validation loop, step equation: embed field present, key field missing. -/
lemma validateSeedItems_cons_kf {ef kf : String} {it : Item} {n : Nat}
    {tl : List Item} (h1 : truthy (itemGet it ef) = true)
    (h2 : truthy (itemGet it kf) = false) :
    validateSeedItems ef kf n (it :: tl) =
      (⟨n, displayName n it, "Missing required field: " ++ kf⟩ ::
        (validateSeedItems ef kf (n + 1) tl).1,
       (validateSeedItems ef kf (n + 1) tl).2) := by
  simp [validateSeedItems, h1, h2]

/-- Validation loop, step equation: both fields present. -/
lemma validateSeedItems_cons_ok {ef kf : String} {it : Item} {n : Nat}
    {tl : List Item} (h1 : truthy (itemGet it ef) = true)
    (h2 : truthy (itemGet it kf) = true) :
    validateSeedItems ef kf n (it :: tl) =
      ((validateSeedItems ef kf (n + 1) tl).1,
       (n, it, (itemGet it ef).getD "") ::
         (validateSeedItems ef kf (n + 1) tl).2) := by
  simp [validateSeedItems, h1, h2]

/-- Counting lemma for the validation loop: the error list counts exactly
the invalid items, and errors plus valid items exhaust the batch. -/
lemma validateSeedItems_counts (ef kf : String) (items : List Item) :
    ∀ n : Nat,
    (validateSeedItems ef kf n items).1.length =
      (items.filter (fun it => itemInvalid ef kf it)).length ∧
    (validateSeedItems ef kf n items).2.length +
      (validateSeedItems ef kf n items).1.length = items.length := by
  induction items with
  | nil => intro n; simp [validateSeedItems]
  | cons it tl ih =>
    intro n
    rcases ih (n + 1) with ⟨ih1, ih2⟩
    by_cases h1 : truthy (itemGet it ef) = false
    · have hinv : itemInvalid ef kf it = true := by simp [itemInvalid, h1]
      rw [validateSeedItems_cons_ef h1]
      constructor
      · simp [List.filter_cons, hinv, ih1]
      · simp only [List.length_cons, List.length_cons]
        omega
    · rw [Bool.not_eq_false] at h1
      by_cases h2 : truthy (itemGet it kf) = false
      · have hinv : itemInvalid ef kf it = true := by simp [itemInvalid, h2]
        rw [validateSeedItems_cons_kf h1 h2]
        constructor
        · simp [List.filter_cons, hinv, ih1]
        · simp only [List.length_cons]
          omega
      · rw [Bool.not_eq_false] at h2
        have hinv : itemInvalid ef kf it = false := by
          simp [itemInvalid, h1, h2]
        rw [validateSeedItems_cons_ok h1 h2]
        constructor
        · simp [List.filter_cons, hinv, ih1]
        · simp only [List.length_cons]
          omega

/-- Every error produced by the validation loop carries the original item
index (relative to the start index), that item's display name, and the
missing-field message for the embed or the key field. -/
lemma validateSeedItems_errors_sound (ef kf : String) (items : List Item) :
    ∀ n : Nat, ∀ e ∈ (validateSeedItems ef kf n items).1,
      n ≤ e.index ∧
      ∃ it, items[e.index - n]? = some it ∧ itemInvalid ef kf it = true ∧
        e.name = displayName e.index it ∧
        (e.error = "Missing required field: " ++ ef ∨
         e.error = "Missing required field: " ++ kf) := by
  induction items with
  | nil => intro n e he; simp [validateSeedItems] at he
  | cons it tl ih =>
    intro n e he
    have tailcase : e ∈ (validateSeedItems ef kf (n + 1) tl).1 →
        n ≤ e.index ∧
        ∃ it2, (it :: tl)[e.index - n]? = some it2 ∧
          itemInvalid ef kf it2 = true ∧
          e.name = displayName e.index it2 ∧
          (e.error = "Missing required field: " ++ ef ∨
           e.error = "Missing required field: " ++ kf) := by
      intro hmem
      rcases ih (n + 1) e hmem with ⟨hle, it2, hget, hrest⟩
      refine ⟨by omega, it2, ?_, hrest⟩
      have hidx : e.index - n = (e.index - (n + 1)) + 1 := by omega
      rw [hidx]
      simpa using hget
    by_cases h1 : truthy (itemGet it ef) = false
    · rw [validateSeedItems_cons_ef h1] at he
      rcases List.mem_cons.mp he with he | he
      · subst he
        exact ⟨Nat.le_refl n, it, by simp, by simp [itemInvalid, h1], rfl,
          Or.inl rfl⟩
      · exact tailcase he
    · rw [Bool.not_eq_false] at h1
      by_cases h2 : truthy (itemGet it kf) = false
      · rw [validateSeedItems_cons_kf h1 h2] at he
        rcases List.mem_cons.mp he with he | he
        · subst he
          exact ⟨Nat.le_refl n, it, by simp, by simp [itemInvalid, h2], rfl,
            Or.inr rfl⟩
        · exact tailcase he
      · rw [Bool.not_eq_false] at h2
        rw [validateSeedItems_cons_ok h1 h2] at he
        exact tailcase he

/-- When the provider fulfils its contract (one vector per submitted text),
the chunked embedding loop succeeds and returns one vector per text. -/
lemma embedChunksLoop_total (eb : List String → Except String (List Vec))
    (hcontract : ∀ ts, ∃ vs, eb ts = Except.ok vs ∧ vs.length = ts.length) :
    ∀ ts, ∃ vs, embedChunksLoop eb ts = Except.ok vs ∧ vs.length = ts.length := by
  suffices h : ∀ (n : Nat) (ts : List String), ts.length ≤ n →
      ∃ vs, embedChunksLoop eb ts = Except.ok vs ∧ vs.length = ts.length by
    exact fun ts => h ts.length ts (Nat.le_refl _)
  intro n
  induction n with
  | zero =>
    intro ts hts
    have : ts = [] := List.length_eq_zero.mp (Nat.le_zero.mp hts)
    subst this
    exact ⟨[], by rw [embedChunksLoop], rfl⟩
  | succ n ih =>
    intro ts hts
    cases ts with
    | nil => exact ⟨[], by rw [embedChunksLoop], rfl⟩
    | cons t tl =>
      rcases hcontract (t :: List.take 99 tl) with ⟨vs1, hv1, hl1⟩
      have hdroplen : (List.drop 99 tl).length ≤ n := by
        simp only [List.length_drop]
        simp only [List.length_cons] at hts
        omega
      rcases ih (List.drop 99 tl) hdroplen with ⟨vs2, hv2, hl2⟩
      refine ⟨vs1 ++ vs2, ?_, ?_⟩
      · rw [embedChunksLoop]
        simp [hv1, hv2]
      · simp only [List.length_append, List.length_cons, List.length_take,
          List.length_drop] at hl1 hl2 ⊢
        omega

/-- C3: a seed call on a seedable brain, against an embedding provider
honouring its one-vector-per-text contract, returns a successful result in
which the errors are exactly the invalid items (those lacking a truthy
embed-field or key-field value), `seeded_count` is the item count minus the
error count, and each error carries the original item index, the item's
best-effort display name and the message "Missing required field: <field>";
the invalid items do not abort the batch. -/
theorem seed_partial_failure (st : Store)
    (eb : List String → Except String (List Vec))
    (now bid coll ef kf : String) (items : List Item)
    (hseed : ∃ b, _validate_brain_seedable st bid = Except.ok b)
    (hcontract : ∀ ts, ∃ vs, eb ts = Except.ok vs ∧ vs.length = ts.length) :
    ∃ st2 res,
      _seed_items_to_collection st eb now bid items coll ef kf =
        (st2, Except.ok res) ∧
      res.errors.length =
        (items.filter (fun it => itemInvalid ef kf it)).length ∧
      res.seeded_count = items.length - res.errors.length ∧
      ∀ e ∈ res.errors,
        ∃ it, items[e.index]? = some it ∧ itemInvalid ef kf it = true ∧
          e.name = displayName e.index it ∧
          (e.error = "Missing required field: " ++ ef ∨
           e.error = "Missing required field: " ++ kf) := by
  rcases hseed with ⟨b, hb⟩
  rcases validateSeedItems_counts ef kf items 0 with ⟨hc1, hc2⟩
  have hsound := validateSeedItems_errors_sound ef kf items 0
  cases items with
  | nil =>
    refine ⟨st, ⟨bid, coll, 0, [], "No items to seed"⟩, rfl, by simp, by simp,
      by simp⟩
  | cons it0 tl =>
    unfold _seed_items_to_collection
    rw [hb]
    simp only [List.isEmpty_cons, if_false, Bool.false_eq_true]
    by_cases hvi : (validateSeedItems ef kf 0 (it0 :: tl)).2.isEmpty
    · rw [if_pos hvi]
      refine ⟨st, _, rfl, by simpa using hc1, ?_, ?_⟩
      · have : (validateSeedItems ef kf 0 (it0 :: tl)).2.length = 0 :=
          List.isEmpty_iff_length_eq_zero.mp hvi
        simp only []
        omega
      · intro e he
        rcases hsound e he with ⟨_, it, hget, hrest⟩
        exact ⟨it, by simpa using hget, hrest⟩
    · rw [if_neg hvi]
      set vitems := (validateSeedItems ef kf 0 (it0 :: tl)).2 with hvitems
      rcases embedChunksLoop_total eb hcontract (vitems.map (fun t => t.2.2)) with
        ⟨vs, hvs, hlen⟩
      have hlen2 : vs.length = vitems.length := by simpa using hlen
      simp only [hvs, hlen2, if_true]
      refine ⟨_, _, rfl, by simpa using hc1, ?_, ?_⟩
      · have hzip : ((vitems.zip vs).map (fun pe =>
            buildSeedPoint bid kf now pe.1.2.1 pe.2)).length = vitems.length := by
          simp [List.length_zip, hlen2]
        simp only [hzip]
        omega
      · intro e he
        rcases hsound e he with ⟨_, it, hget, hrest⟩
        exact ⟨it, by simpa using hget, hrest⟩

/-- C3 witness: the partial-failure theorem evaluated on the fixture store,
seeding one valid and one invalid ICP rule into the draft brain. -/
theorem seed_partial_failure_witness :
    (∃ b, _validate_brain_seedable storeFx "brain_fintech_v2" = Except.ok b) ∧
    (∀ ts, ∃ vs, embOkFx ts = Except.ok vs ∧ vs.length = ts.length) ∧
    (∃ st2 res,
      _seed_items_to_collection storeFx embOkFx "t1" "brain_fintech_v2"
          seedItemsFx "icp_rules" "criteria" "name" =
        (st2, Except.ok res) ∧
      res.errors.length =
        (seedItemsFx.filter (fun it => itemInvalid "criteria" "name" it)).length ∧
      res.seeded_count = seedItemsFx.length - res.errors.length ∧
      ∀ e ∈ res.errors,
        ∃ it, seedItemsFx[e.index]? = some it ∧
          itemInvalid "criteria" "name" it = true ∧
          e.name = displayName e.index it ∧
          (e.error = "Missing required field: " ++ "criteria" ∨
           e.error = "Missing required field: " ++ "name")) := by
  have h1 : ∃ b, _validate_brain_seedable storeFx "brain_fintech_v2" =
      Except.ok b := ⟨brainDraftFx, rfl⟩
  have h2 : ∀ ts, ∃ vs, embOkFx ts = Except.ok vs ∧ vs.length = ts.length :=
    fun ts => ⟨ts.map (fun _ => [1]), rfl, by simp [embOkFx]⟩
  exact ⟨h1, h2, seed_partial_failure storeFx embOkFx "t1" "brain_fintech_v2"
    "icp_rules" "criteria" "name" seedItemsFx h1 h2⟩

/-- Equation lemma: chunking the empty text list. -/
lemma chunksOf100_nil : chunksOf100 [] = [] := by
  rw [chunksOf100]

/-- Equation lemma: chunking a nonempty text list peels off the first (at
most) 100 texts. -/
lemma chunksOf100_cons (t : String) (tl : List String) :
    chunksOf100 (t :: tl) =
      (t :: List.take 99 tl) :: chunksOf100 (List.drop 99 tl) := by
  rw [chunksOf100]; rfl

/-- Equation lemma: the embedding loop on the empty text list. -/
lemma embedChunksLoop_nil (eb : List String → Except String (List Vec)) :
    embedChunksLoop eb [] = Except.ok [] := by
  rw [embedChunksLoop]

/-- Equation lemma: the embedding loop embeds the first chunk, then recurses
on the remaining texts. -/
lemma embedChunksLoop_cons (eb : List String → Except String (List Vec))
    (t : String) (tl : List String) :
    embedChunksLoop eb (t :: tl) =
      match eb (t :: List.take 99 tl) with
      | Except.error e => Except.error e
      | Except.ok vs =>
        match embedChunksLoop eb (List.drop 99 tl) with
        | Except.error e => Except.error e
        | Except.ok rest => Except.ok (vs ++ rest) := by
  rw [embedChunksLoop]; rfl

/-- The chunking is a partition: flattening the chunks restores the text
list. -/
lemma chunksOf100_flatten (ts : List String) : (chunksOf100 ts).flatten = ts := by
  suffices h : ∀ (n : Nat) (l : List String), l.length ≤ n →
      (chunksOf100 l).flatten = l by exact h ts.length ts (Nat.le_refl _)
  intro n
  induction n with
  | zero =>
    intro l hl
    have : l = [] := List.length_eq_zero.mp (Nat.le_zero.mp hl)
    subst this
    rw [chunksOf100_nil]
    rfl
  | succ n ih =>
    intro l hl
    cases l with
    | nil => rw [chunksOf100_nil]; rfl
    | cons t tl =>
      have hdroplen : (List.drop 99 tl).length ≤ n := by
        simp only [List.length_drop]
        simp only [List.length_cons] at hl
        omega
      rw [chunksOf100_cons]
      simp only [List.flatten_cons, ih (List.drop 99 tl) hdroplen]
      simp [List.take_append_drop]

/-- Every chunk is nonempty and holds at most 100 texts. -/
lemma chunksOf100_bounds (ts : List String) :
    ∀ c ∈ chunksOf100 ts, c ≠ [] ∧ c.length ≤ 100 := by
  suffices h : ∀ (n : Nat) (l : List String), l.length ≤ n →
      ∀ c ∈ chunksOf100 l, c ≠ [] ∧ c.length ≤ 100 by
    exact h ts.length ts (Nat.le_refl _)
  intro n
  induction n with
  | zero =>
    intro l hl c hc
    have : l = [] := List.length_eq_zero.mp (Nat.le_zero.mp hl)
    subst this
    rw [chunksOf100_nil] at hc
    cases hc
  | succ n ih =>
    intro l hl c hc
    cases l with
    | nil => rw [chunksOf100_nil] at hc; cases hc
    | cons t tl =>
      have hdroplen : (List.drop 99 tl).length ≤ n := by
        simp only [List.length_drop]
        simp only [List.length_cons] at hl
        omega
      rw [chunksOf100_cons] at hc
      rcases List.mem_cons.mp hc with hc | hc
      · subst hc
        refine ⟨by simp, ?_⟩
        simp only [List.length_cons, List.length_take]
        omega
      · exact ih (List.drop 99 tl) hdroplen c hc

/-- If every chunk of the text list embeds successfully with one vector per
text, the loop succeeds with one vector per text. -/
lemma embedChunksLoop_ok_of_chunks (eb : List String → Except String (List Vec)) :
    ∀ ts, (∀ c ∈ chunksOf100 ts, ∃ vs, eb c = Except.ok vs ∧ vs.length = c.length) →
    ∃ vs, embedChunksLoop eb ts = Except.ok vs ∧ vs.length = ts.length := by
  suffices h : ∀ (n : Nat) (l : List String), l.length ≤ n →
      (∀ c ∈ chunksOf100 l, ∃ vs, eb c = Except.ok vs ∧ vs.length = c.length) →
      ∃ vs, embedChunksLoop eb l = Except.ok vs ∧ vs.length = l.length by
    exact fun ts => h ts.length ts (Nat.le_refl _)
  intro n
  induction n with
  | zero =>
    intro l hl _
    have : l = [] := List.length_eq_zero.mp (Nat.le_zero.mp hl)
    subst this
    exact ⟨[], by rw [embedChunksLoop], rfl⟩
  | succ n ih =>
    intro l hl hchunks
    cases l with
    | nil => exact ⟨[], embedChunksLoop_nil eb, rfl⟩
    | cons t tl =>
      rw [chunksOf100_cons] at hchunks
      rcases hchunks (t :: List.take 99 tl) (List.mem_cons_self _ _) with
        ⟨vs1, hv1, hl1⟩
      have hdroplen : (List.drop 99 tl).length ≤ n := by
        simp only [List.length_drop]
        simp only [List.length_cons] at hl
        omega
      rcases ih (List.drop 99 tl) hdroplen
        (fun c hc => hchunks c (List.mem_cons_of_mem _ hc)) with ⟨vs2, hv2, hl2⟩
      refine ⟨vs1 ++ vs2, ?_, ?_⟩
      · rw [embedChunksLoop_cons]
        simp [hv1, hv2]
      · simp only [List.length_append, List.length_cons, List.length_take,
          List.length_drop] at hl1 hl2 ⊢
        omega

/-- If some chunk fails and all chunks before it succeed, the loop aborts
with that chunk's error. -/
lemma embedChunksLoop_error_of_chunk (eb : List String → Except String (List Vec)) :
    ∀ ts pre c post e, chunksOf100 ts = pre ++ c :: post →
    (∀ c2 ∈ pre, ∃ vs, eb c2 = Except.ok vs) →
    eb c = Except.error e →
    embedChunksLoop eb ts = Except.error e := by
  suffices h : ∀ (n : Nat) (l : List String), l.length ≤ n →
      ∀ pre c post e, chunksOf100 l = pre ++ c :: post →
      (∀ c2 ∈ pre, ∃ vs, eb c2 = Except.ok vs) →
      eb c = Except.error e →
      embedChunksLoop eb l = Except.error e by
    exact fun ts => h ts.length ts (Nat.le_refl _)
  intro n
  induction n with
  | zero =>
    intro l hl pre c post e hchunks _ _
    have : l = [] := List.length_eq_zero.mp (Nat.le_zero.mp hl)
    subst this
    rw [chunksOf100_nil] at hchunks
    exact absurd hchunks (List.append_ne_nil_of_right_ne_nil pre (by simp)).symm
  | succ n ih =>
    intro l hl pre c post e hchunks hpre herr
    cases l with
    | nil =>
      rw [chunksOf100_nil] at hchunks
      exact absurd hchunks (List.append_ne_nil_of_right_ne_nil pre (by simp)).symm
    | cons t tl =>
      have hdroplen : (List.drop 99 tl).length ≤ n := by
        simp only [List.length_drop]
        simp only [List.length_cons] at hl
        omega
      rw [chunksOf100_cons] at hchunks
      cases pre with
      | nil =>
        simp only [List.nil_append, List.cons.injEq] at hchunks
        rw [← hchunks.1] at herr
        rw [embedChunksLoop_cons]
        simp [herr]
      | cons p pre2 =>
        simp only [List.cons_append, List.cons.injEq] at hchunks
        rcases hpre p (List.mem_cons_self _ _) with ⟨vs1, hv1⟩
        rw [← hchunks.1] at hv1
        have hrec := ih (List.drop 99 tl) hdroplen pre2 c post e hchunks.2
          (fun c2 hc2 => hpre c2 (List.mem_cons_of_mem _ hc2)) herr
        rw [embedChunksLoop_cons]
        simp [hv1, hrec]

/-- C6: on a seed call that reaches the embedding stage (seedable brain, at
least one valid item), the valid items' embed-field texts are partitioned in
order into consecutive nonempty chunks of at most 100; if some chunk fails
(all earlier chunks succeeding), the whole call returns the embedding error
with the store unchanged — no point has been upserted; and if every chunk
succeeds, the store change is exactly one batch upsert of all the points
into the target collection. -/
theorem seed_chunked_embedding_atomic (st : Store)
    (eb : List String → Except String (List Vec))
    (now bid coll ef kf : String) (items : List Item)
    (hb : ∃ b, _validate_brain_seedable st bid = Except.ok b)
    (hvne : (validateSeedItems ef kf 0 items).2.isEmpty = false) :
    ((chunksOf100 (seedTexts ef kf items)).flatten = seedTexts ef kf items ∧
     ∀ c ∈ chunksOf100 (seedTexts ef kf items), c ≠ [] ∧ c.length ≤ 100) ∧
    (∀ pre c post e,
       chunksOf100 (seedTexts ef kf items) = pre ++ c :: post →
       (∀ c2 ∈ pre, ∃ vs, eb c2 = Except.ok vs) →
       eb c = Except.error e →
       _seed_items_to_collection st eb now bid items coll ef kf =
         (st, Except.error (ToolError.embeddingFailed e))) ∧
    ((∀ c ∈ chunksOf100 (seedTexts ef kf items),
        ∃ vs, eb c = Except.ok vs ∧ vs.length = c.length) →
       ∃ pts res, pts.length = (validateSeedItems ef kf 0 items).2.length ∧
         _seed_items_to_collection st eb now bid items coll ef kf =
           (st.setColl coll (upsertCPoints (st.coll coll) pts),
            Except.ok res) ∧
         res.seeded_count = pts.length) := by
  rcases hb with ⟨b, hb⟩
  refine ⟨⟨chunksOf100_flatten _, chunksOf100_bounds _⟩, ?_, ?_⟩
  · intro pre c post e hchunks hpre herr
    have hloop := embedChunksLoop_error_of_chunk eb (seedTexts ef kf items)
      pre c post e hchunks hpre herr
    cases items with
    | nil => simp [validateSeedItems] at hvne
    | cons it0 tl =>
      unfold _seed_items_to_collection
      rw [hb]
      simp only [List.isEmpty_cons, Bool.false_eq_true, if_false]
      rw [if_neg (by simp [hvne])]
      unfold seedTexts at hloop
      simp [hloop]
  · intro hchunks
    rcases embedChunksLoop_ok_of_chunks eb (seedTexts ef kf items) hchunks with
      ⟨vs, hvs, hlen⟩
    cases items with
    | nil => simp [validateSeedItems] at hvne
    | cons it0 tl =>
      have hlen2 : vs.length = (validateSeedItems ef kf 0 (it0 :: tl)).2.length := by
        unfold seedTexts at hlen
        simpa using hlen
      refine ⟨((validateSeedItems ef kf 0 (it0 :: tl)).2.zip vs).map
        (fun pe => buildSeedPoint bid kf now pe.1.2.1 pe.2), ?_⟩
      unfold _seed_items_to_collection
      rw [hb]
      simp only [List.isEmpty_cons, Bool.false_eq_true, if_false]
      rw [if_neg (by simp [hvne])]
      unfold seedTexts at hvs
      simp only [hvs, hlen2, if_true]
      refine ⟨_, ?_, rfl, rfl⟩
      simp [List.length_zip, hlen2]

/-- C6 witness: the chunked-embedding theorem evaluated on the fixture
store and batch. -/
theorem seed_chunked_embedding_witness :
    (∃ b, _validate_brain_seedable storeFx "brain_fintech_v2" = Except.ok b) ∧
    (validateSeedItems "criteria" "name" 0 seedItemsFx).2.isEmpty = false ∧
    (((chunksOf100 (seedTexts "criteria" "name" seedItemsFx)).flatten =
        seedTexts "criteria" "name" seedItemsFx ∧
      ∀ c ∈ chunksOf100 (seedTexts "criteria" "name" seedItemsFx),
        c ≠ [] ∧ c.length ≤ 100) ∧
     (∀ pre c post e,
        chunksOf100 (seedTexts "criteria" "name" seedItemsFx) =
          pre ++ c :: post →
        (∀ c2 ∈ pre, ∃ vs, embOkFx c2 = Except.ok vs) →
        embOkFx c = Except.error e →
        _seed_items_to_collection storeFx embOkFx "t1" "brain_fintech_v2"
            seedItemsFx "icp_rules" "criteria" "name" =
          (storeFx, Except.error (ToolError.embeddingFailed e))) ∧
     ((∀ c ∈ chunksOf100 (seedTexts "criteria" "name" seedItemsFx),
         ∃ vs, embOkFx c = Except.ok vs ∧ vs.length = c.length) →
        ∃ pts res,
          pts.length =
            (validateSeedItems "criteria" "name" 0 seedItemsFx).2.length ∧
          _seed_items_to_collection storeFx embOkFx "t1" "brain_fintech_v2"
              seedItemsFx "icp_rules" "criteria" "name" =
            (storeFx.setColl "icp_rules"
              (upsertCPoints (storeFx.coll "icp_rules") pts),
             Except.ok res) ∧
          res.seeded_count = pts.length)) := by
  have h1 : ∃ b, _validate_brain_seedable storeFx "brain_fintech_v2" =
      Except.ok b := ⟨brainDraftFx, rfl⟩
  have h2 : (validateSeedItems "criteria" "name" 0 seedItemsFx).2.isEmpty =
      false := by decide
  exact ⟨h1, h2, seed_chunked_embedding_atomic storeFx embOkFx "t1"
    "brain_fintech_v2" "icp_rules" "criteria" "name" seedItemsFx h1 h2⟩

/-- C10: whenever `add_insight` persists an insight (it returned `created`),
the new point was upserted into the `insights` collection carrying the
nested validation object with status `"pending"` — whatever the gate's
`requires_validation` flag was; only the stored `needs_validation` boolean
(echoed in the output) varies with it. -/
theorem add_insight_stored_pending (cfg : GateConfig) (ed : String → Vec)
    (fresh_id : String) (st : Store)
    (brain_id content category importance : String)
    (source : Option SourceMetadata) (st2 : Store) (out : AddInsightOut)
    (h : add_insight cfg ed fresh_id st brain_id content category importance
      source = (st2, Except.ok out))
    (hcreated : out.status = "created") :
    ∃ p, st2.coll "insights" = upsertCPoints (st.coll "insights") [p] ∧
      p.pid = fresh_id ∧ p.brain_id = brain_id ∧
      ∃ req : Bool, p.validation = some ⟨"pending", req⟩ ∧
        out.needs_validation = some req := by
  unfold add_insight at h
  split at h
  · simp at h
  · split at h
    · simp at h
    · split at h
      · simp at h
      · split at h
        · simp at h
        · split at h
          · simp at h
          · split at h
            · simp at h
            · split at h
              · simp at h
              · split at h
                · simp at h
                · simp only [] at h
                  split at h
                  · split at h
                    · rw [Prod.mk.injEq] at h
                      obtain ⟨h1, h2⟩ := h
                      injection h2 with h2
                      rw [← h2] at hcreated
                      simp at hcreated
                    · rw [Prod.mk.injEq] at h
                      obtain ⟨h1, h2⟩ := h
                      injection h2 with h2
                      rw [← h2] at hcreated
                      simp at hcreated
                  · rw [Prod.mk.injEq] at h
                    obtain ⟨h1, h2⟩ := h
                    injection h2 with h2
                    subst h1
                    subst h2
                    exact ⟨_, Store.coll_setColl_same _ _ _, rfl, rfl, _,
                      rfl, rfl⟩

/-- Membership of the top match: the reported id belongs to a point of the
queried list. -/
lemma topMatch_mem (sim : Vec → Vec → ℚ) (v : Vec) :
    ∀ (l : List CPoint) (eid : String) (s : ℚ),
      topMatch sim v l = some (eid, s) → ∃ p ∈ l, p.pid = eid := by
  intro l
  induction l with
  | nil => intro eid s h; simp [topMatch] at h
  | cons p ps ih =>
    intro eid s h
    unfold topMatch at h
    cases htm : topMatch sim v ps with
    | none =>
      rw [htm] at h
      simp only [Option.some.injEq, Prod.mk.injEq] at h
      exact ⟨p, List.mem_cons_self _ _, h.1⟩
    | some best =>
      rw [htm] at h
      simp only [] at h
      by_cases hge : sim v p.vector ≥ best.2
      · rw [if_pos hge] at h
        simp only [Option.some.injEq, Prod.mk.injEq] at h
        exact ⟨p, List.mem_cons_self _ _, h.1⟩
      · rw [if_neg hge] at h
        have hbest : best = (eid, s) := by simpa using h
        rcases ih eid s (by rw [htm, hbest]) with ⟨q, hq, hqid⟩
        exact ⟨q, List.mem_cons_of_mem _ hq, hqid⟩

/-- C5: a valid `add_insight` call whose duplicate check finds a top match
with similarity at or above the 0.85 threshold returns the structured
result `duplicate` (an ordinary result, not a raised error) carrying the
existing insight's id and the measured similarity; the store is returned
unchanged, the insights row count in particular, and the reported id is the
id of an insight already stored for that brain.  A failed non-duplicate
gate likewise returns the structured result `rejected`. -/
theorem add_insight_duplicate_no_write (cfg : GateConfig) (ed : String → Vec)
    (fresh_id : String) (st : Store)
    (bid content category importance : String) (imp : Importance)
    (src : SourceMetadata) (eid : String) (s : ℚ)
    (hfmt : validate_brain_id bid = true)
    (hlen1 : 10 ≤ content.length) (hlen2 : content.length ≤ 5000)
    (hcat : insightCategories.contains category = true)
    (himp : parseImportance importance = some imp)
    (htype : src.type ≠ "") (hsid : src.id ≠ "")
    (htop : topMatch cfg.sim (cfg.embed_q content)
      ((st.coll "insights").filter (fun p => p.brain_id == bid)) =
      some (eid, s))
    (hs : DUPLICATE_SIMILARITY_THRESHOLD ≤ s) :
    add_insight cfg ed fresh_id st bid content category importance (some src) =
      (st, Except.ok
        { status := "duplicate", existing_id := some eid,
          similarity := some s }) ∧
    ((add_insight cfg ed fresh_id st bid content category importance
      (some src)).1.coll "insights").length = (st.coll "insights").length ∧
    (∃ p ∈ st.coll "insights", p.pid = eid ∧ p.brain_id = bid) := by
  have hgate : run_quality_gate cfg (st.coll "insights") bid content category
      imp src =
      { passed := false, is_duplicate := true, duplicate_id := some eid,
        similarity_score := some s,
        confidence_score := cfg.confidence_of imp src.type } := by
    unfold run_quality_gate
    simp only []
    rw [htop]
    simp only []
    rw [if_pos hs]
  have hmain : add_insight cfg ed fresh_id st bid content category importance
      (some src) =
      (st, Except.ok
        { status := "duplicate", existing_id := some eid,
          similarity := some s }) := by
    simp only [add_insight, hfmt, hcat, himp, htype, hsid, hgate,
      show ¬content.length < 10 from by omega,
      show ¬content.length > 5000 from by omega, Bool.true_eq_false,
      beq_iff_eq, if_false]
    simp
  refine ⟨hmain, by rw [hmain], ?_⟩
  rcases topMatch_mem cfg.sim (cfg.embed_q content) _ eid s htop with
    ⟨p, hpmem, hpid⟩
  rcases List.mem_filter.mp hpmem with ⟨hpcoll, hpbrain⟩
  exact ⟨p, hpcoll, hpid, by simpa using hpbrain⟩

/-- C10 witness: two concrete accepted runs against the fixture store — one
medium-importance (gate flag false) and one high-importance (gate flag
true); both persist with validation status `"pending"`. -/
theorem add_insight_stored_pending_witness :
    (∃ st2 out,
      add_insight gateCfgFx (fun _ => []) "ins-new" storeFx "brain_fintech_v2"
          "a genuinely new insight" "pain_point" "medium"
          (some ⟨"call_transcript", "s1", none, none, none⟩) =
        (st2, Except.ok out) ∧ out.status = "created" ∧
      ∃ p, st2.coll "insights" = upsertCPoints (storeFx.coll "insights") [p] ∧
        p.pid = "ins-new" ∧ p.brain_id = "brain_fintech_v2" ∧
        ∃ req : Bool, p.validation = some ⟨"pending", req⟩ ∧
          out.needs_validation = some req) ∧
    (∃ st2 out,
      add_insight gateCfgFx (fun _ => []) "ins-new2" storeFx "brain_fintech_v2"
          "a genuinely new insight" "pain_point" "high"
          (some ⟨"call_transcript", "s1", none, none, none⟩) =
        (st2, Except.ok out) ∧ out.status = "created" ∧
      out.needs_validation = some true ∧
      ∃ p, st2.coll "insights" = upsertCPoints (storeFx.coll "insights") [p] ∧
        p.pid = "ins-new2" ∧ p.brain_id = "brain_fintech_v2" ∧
        ∃ req : Bool, p.validation = some ⟨"pending", req⟩ ∧
          out.needs_validation = some req) := by
  constructor
  · exact ⟨_, _, rfl, rfl, add_insight_stored_pending gateCfgFx (fun _ => [])
      "ins-new" storeFx "brain_fintech_v2" "a genuinely new insight"
      "pain_point" "medium" (some ⟨"call_transcript", "s1", none, none, none⟩)
      _ _ rfl rfl⟩
  · exact ⟨_, _, rfl, rfl, rfl, add_insight_stored_pending gateCfgFx
      (fun _ => []) "ins-new2" storeFx "brain_fintech_v2"
      "a genuinely new insight" "pain_point" "high"
      (some ⟨"call_transcript", "s1", none, none, none⟩)
      _ _ rfl rfl⟩

/-- C5 witness: against the fixture store, whose `insights` collection holds
`insightFx` for the active fintech brain, a 0.9-similarity gate reports a
duplicate with that insight's id, writes nothing, and returns an ordinary
result. -/
theorem add_insight_duplicate_witness :
    (validate_brain_id "brain_fintech_v1" = true ∧
     10 ≤ ("a near duplicate insight" : String).length ∧
     ("a near duplicate insight" : String).length ≤ 5000 ∧
     insightCategories.contains "pain_point" = true ∧
     parseImportance "medium" = some Importance.medium ∧
     ("call_transcript" : String) ≠ "" ∧ ("s1" : String) ≠ "" ∧
     topMatch gateCfgFx.sim (gateCfgFx.embed_q "a near duplicate insight")
       ((storeFx.coll "insights").filter
         (fun p => p.brain_id == "brain_fintech_v1")) =
       some ("ins-1", 9 / 10) ∧
     DUPLICATE_SIMILARITY_THRESHOLD ≤ 9 / 10) ∧
    (add_insight gateCfgFx (fun _ => []) "ins-dup" storeFx "brain_fintech_v1"
        "a near duplicate insight" "pain_point" "medium"
        (some ⟨"call_transcript", "s1", none, none, none⟩) =
      (storeFx, Except.ok
        { status := "duplicate", existing_id := some "ins-1",
          similarity := some (9 / 10) }) ∧
     ((add_insight gateCfgFx (fun _ => []) "ins-dup" storeFx "brain_fintech_v1"
        "a near duplicate insight" "pain_point" "medium"
        (some ⟨"call_transcript", "s1", none, none, none⟩)).1.coll
       "insights").length = (storeFx.coll "insights").length ∧
     (∃ p ∈ storeFx.coll "insights", p.pid = "ins-1" ∧
       p.brain_id = "brain_fintech_v1")) := by
  refine ⟨⟨by decide, by decide, by decide, by decide, rfl, by decide,
    by decide, rfl, by norm_num [DUPLICATE_SIMILARITY_THRESHOLD]⟩, ?_⟩
  exact add_insight_duplicate_no_write gateCfgFx (fun _ => []) "ins-dup"
    storeFx "brain_fintech_v1" "a near duplicate insight" "pain_point"
    "medium" Importance.medium ⟨"call_transcript", "s1", none, none, none⟩
    "ins-1" (9 / 10) (by decide) (by decide) (by decide) (by decide) rfl
    (by decide) (by decide) rfl (by norm_num [DUPLICATE_SIMILARITY_THRESHOLD])

/-- C8: whatever brain a `get_brain` read resolves, its returned `stats` are
the live per-collection counts computed through the store reader at that
brain's id, never the stored stats block — and the same for every item of
`list_brains`; a reader failure on one collection degrades that collection's
count to 0; and whether the read succeeds does not depend on the reader at
all, so a brain read still succeeds when a count query fails. -/
theorem brain_stats_recomputed :
    (∀ (st : Store) (reader : CollectionReader) (bidq vq : Option String)
       (out : BrainOut), get_brain st reader bidq vq = some out →
       out.stats = _calculate_brain_stats_internal reader out.brain_id) ∧
    (∀ (st : Store) (reader : CollectionReader) (out : BrainOut),
       out ∈ list_brains st reader →
       out.stats = _calculate_brain_stats_internal reader out.brain_id) ∧
    (∀ (reader : CollectionReader) (bid name : String), reader name = none →
       countForCollection reader bid name = 0) ∧
    (∀ (st : Store) (r1 r2 : CollectionReader) (bidq vq : Option String),
       (get_brain st r1 bidq vq).isSome = (get_brain st r2 bidq vq).isSome) := by
  refine ⟨?_, ?_, ?_, ?_⟩
  · intro st reader bidq vq out h
    unfold get_brain at h
    cases hres : getBrainResults st bidq vq with
    | nil => rw [hres] at h; exact absurd h (by simp)
    | cons p rest =>
      rw [hres] at h
      injection h with h
      subst h
      rfl
  · intro st reader out h
    unfold list_brains at h
    rcases List.mem_map.mp h with ⟨p, _, hout⟩
    subst hout
    rfl
  · intro reader bid name h
    unfold countForCollection
    rw [h]
  · intro st r1 r2 bidq vq
    unfold get_brain
    cases hres : getBrainResults st bidq vq <;> simp

/-- C8 witness: a fixture read by vertical returns the live counts, and with
a reader whose `icp_rules` scroll fails the count degrades to 0 while the
read still succeeds. -/
theorem brain_stats_recomputed_witness :
    (∃ out, get_brain storeFx storeFx.reader none (some "fintech") =
        some out ∧
      out.stats = _calculate_brain_stats_internal storeFx.reader
        out.brain_id) ∧
    readerFailFx "icp_rules" = none ∧
    countForCollection readerFailFx "brain_fintech_v1" "icp_rules" = 0 ∧
    (get_brain storeFx readerFailFx none (some "fintech")).isSome =
      (get_brain storeFx storeFx.reader none (some "fintech")).isSome ∧
    (get_brain storeFx readerFailFx none (some "fintech")).isSome = true := by
  refine ⟨⟨_, rfl, brain_stats_recomputed.1 storeFx storeFx.reader none
    (some "fintech") _ rfl⟩, rfl,
    brain_stats_recomputed.2.2.1 readerFailFx "brain_fintech_v1" "icp_rules"
      rfl,
    brain_stats_recomputed.2.2.2 storeFx readerFailFx storeFx.reader none
      (some "fintech"), rfl⟩

/-- A brains scroll only reads the brains collection. -/
lemma scrollBrains_congr {st1 st2 : Store} (h : st1.brains = st2.brains)
    (conds : List (String × String)) (limit : Nat) :
    scrollBrains st1 conds limit = scrollBrains st2 conds limit := by
  unfold scrollBrains
  rw [h]

/-- One cascade iteration: the brains collection is untouched, the recorded
count is the number of points of the collection scoped to the brain, the
collection loses exactly those points, and every other collection is
untouched. -/
lemma deleteCollectionStep_spec (bid : String) (st0 stAcc : Store)
    (accl : List (String × Nat)) (c : String × String)
    (hagree : stAcc.coll c.1 = st0.coll c.1)
    (hnodup : ((st0.coll c.1).map (fun p => p.pid)).Nodup)
    (hbound : ((st0.coll c.1).filter (fun p => p.brain_id == bid)).length ≤
      10000) :
    (deleteCollectionStep bid (stAcc, accl) c).1.brains = stAcc.brains ∧
    (deleteCollectionStep bid (stAcc, accl) c).2 =
      accl ++ [(c.2,
        ((st0.coll c.1).filter (fun p => p.brain_id == bid)).length)] ∧
    (deleteCollectionStep bid (stAcc, accl) c).1.coll c.1 =
      (st0.coll c.1).filter (fun p => !(p.brain_id == bid)) ∧
    (∀ m, m ≠ c.1 →
      (deleteCollectionStep bid (stAcc, accl) c).1.coll m = stAcc.coll m) := by
  unfold deleteCollectionStep
  simp only [hagree]
  rw [List.take_of_length_le hbound]
  simp only [List.length_map]
  by_cases hcnt :
      ((st0.coll c.1).filter (fun p => p.brain_id == bid)).length > 0
  · rw [if_pos hcnt]
    have hids : ∀ p ∈ st0.coll c.1,
        (((st0.coll c.1).filter (fun p => p.brain_id == bid)).map
          (fun p => p.pid)).contains p.pid = (p.brain_id == bid) := by
      intro p hp
      by_cases hmatch : (p.brain_id == bid) = true
      · rw [hmatch]
        have : p ∈ (st0.coll c.1).filter (fun p => p.brain_id == bid) :=
          List.mem_filter.mpr ⟨hp, hmatch⟩
        simp only [List.contains_eq_any_beq, List.any_eq_true]
        exact ⟨p.pid, List.mem_map.mpr ⟨p, this, rfl⟩, by simp⟩
      · rw [Bool.not_eq_true] at hmatch
        rw [hmatch]
        rw [List.contains_eq_any_beq, List.any_eq_false]
        intro x hx
        simp only [Bool.not_eq_true, beq_eq_false_iff_ne, ne_eq]
        intro hxeq
        rcases List.mem_map.mp hx with ⟨q, hqf, hqpid⟩
        rcases List.mem_filter.mp hqf with ⟨hqmem, hqmatch⟩
        have hpq : q = p := by
          apply List.inj_on_of_nodup_map hnodup hqmem hp
          rw [hqpid, hxeq]
        rw [hpq] at hqmatch
        rw [hqmatch] at hmatch
        cases hmatch
    have hfilter : (st0.coll c.1).filter (fun p =>
        !(((st0.coll c.1).filter (fun p => p.brain_id == bid)).map
          (fun p => p.pid)).contains p.pid) =
        (st0.coll c.1).filter (fun p => !(p.brain_id == bid)) := by
      apply List.filter_congr
      intro p hp
      rw [hids p hp]
    refine ⟨Store.brains_setColl _ _ _, by trivial, ?_, ?_⟩
    · rw [Store.coll_setColl_same, hfilter]
    · intro m hm
      exact Store.coll_setColl_other _ _ _ _ hm
  · rw [if_neg hcnt]
    have hempty : (st0.coll c.1).filter (fun p => p.brain_id == bid) = [] := by
      have : ((st0.coll c.1).filter (fun p => p.brain_id == bid)).length = 0 :=
        by omega
      exact List.length_eq_zero.mp this
    have hnomatch : ∀ p ∈ st0.coll c.1, (p.brain_id == bid) = false := by
      intro p hp
      by_cases hb : (p.brain_id == bid) = true
      · have : p ∈ (st0.coll c.1).filter (fun p => p.brain_id == bid) :=
          List.mem_filter.mpr ⟨hp, hb⟩
        rw [hempty] at this
        cases this
      · exact Bool.not_eq_true _ ▸ hb
    refine ⟨rfl, by trivial, ?_, fun m _ => rfl⟩
    rw [hagree]
    have : (st0.coll c.1).filter (fun p => !(p.brain_id == bid)) =
        st0.coll c.1 := by
      apply List.filter_eq_self.mpr
      intro p hp
      rw [hnomatch p hp]
      rfl
    rw [this]

/-- The cascade fold over a duplicate-free list of collections: brains are
untouched, the recorded counts are the per-collection scoped counts against
the starting store, each listed collection loses exactly its scoped points,
and unlisted collections are untouched. -/
lemma deleteCascade_fold (bid : String) (st0 : Store) :
    ∀ (names : List (String × String)) (stAcc : Store)
      (accl : List (String × Nat)),
    (∀ c ∈ names, stAcc.coll c.1 = st0.coll c.1) →
    (names.map (fun c => c.1)).Nodup →
    (∀ c ∈ names, ((st0.coll c.1).map (fun p => p.pid)).Nodup) →
    (∀ c ∈ names,
      ((st0.coll c.1).filter (fun p => p.brain_id == bid)).length ≤ 10000) →
    (names.foldl (deleteCollectionStep bid) (stAcc, accl)).1.brains =
      stAcc.brains ∧
    (names.foldl (deleteCollectionStep bid) (stAcc, accl)).2 =
      accl ++ names.map (fun c => (c.2,
        ((st0.coll c.1).filter (fun p => p.brain_id == bid)).length)) ∧
    (∀ c ∈ names,
      (names.foldl (deleteCollectionStep bid) (stAcc, accl)).1.coll c.1 =
        (st0.coll c.1).filter (fun p => !(p.brain_id == bid))) ∧
    (∀ m, (∀ c ∈ names, c.1 ≠ m) →
      (names.foldl (deleteCollectionStep bid) (stAcc, accl)).1.coll m =
        stAcc.coll m) := by
  intro names
  induction names with
  | nil =>
    intro stAcc accl _ _ _ _
    exact ⟨rfl, by simp, by simp, fun m _ => rfl⟩
  | cons c names ih =>
    intro stAcc accl hagree hkeys hnodup hbound
    have hstep := deleteCollectionStep_spec bid st0 stAcc accl c
      (hagree c (List.mem_cons_self _ _))
      (hnodup c (List.mem_cons_self _ _))
      (hbound c (List.mem_cons_self _ _))
    rcases hstep with ⟨hsb, hsacc, hscoll, hsother⟩
    have hkey : c.1 ∉ names.map (fun x => x.1) := by
      rcases List.nodup_cons.mp hkeys with ⟨h1, _⟩
      exact h1
    have hagree2 : ∀ c2 ∈ names,
        (deleteCollectionStep bid (stAcc, accl) c).1.coll c2.1 =
          st0.coll c2.1 := by
      intro c2 hc2
      have hne : c2.1 ≠ c.1 := by
        intro heq
        exact hkey (heq ▸ List.mem_map.mpr ⟨c2, hc2, rfl⟩)
      rw [hsother c2.1 hne]
      exact hagree c2 (List.mem_cons_of_mem _ hc2)
    have hrest := ih (deleteCollectionStep bid (stAcc, accl) c).1
      (deleteCollectionStep bid (stAcc, accl) c).2 hagree2
      (List.nodup_cons.mp hkeys).2
      (fun c2 hc2 => hnodup c2 (List.mem_cons_of_mem _ hc2))
      (fun c2 hc2 => hbound c2 (List.mem_cons_of_mem _ hc2))
    rcases hrest with ⟨hrb, hracc, hrcoll, hrother⟩
    have hfold : (c :: names).foldl (deleteCollectionStep bid) (stAcc, accl) =
        names.foldl (deleteCollectionStep bid)
          ((deleteCollectionStep bid (stAcc, accl) c).1,
           (deleteCollectionStep bid (stAcc, accl) c).2) := by
      rw [List.foldl_cons]
    refine ⟨?_, ?_, ?_, ?_⟩
    · rw [hfold, hrb, hsb]
    · rw [hfold, hracc, hsacc]
      simp [List.append_assoc]
    · intro c2 hc2
      rcases List.mem_cons.mp hc2 with hc2 | hc2
      · subst hc2
        rw [hfold]
        have hothers : ∀ c3 ∈ names, c3.1 ≠ c2.1 := by
          intro c3 hc3 heq
          exact hkey (heq ▸ List.mem_map.mpr ⟨c3, hc3, rfl⟩)
        rw [hrother c2.1 hothers]
        exact hscoll
      · rw [hfold]
        exact hrcoll c2 hc2
    · intro m hm
      rw [hfold, hrother m (fun c2 hc2 => hm c2 (List.mem_cons_of_mem _ hc2))]
      exact hsother m (fun heq => hm c (List.mem_cons_self _ _) heq.symm)

/-- A brains-only update leaves every content collection as it was. -/
lemma Store.coll_setBrains (st : Store) (b : List BrainPoint) (name : String) :
    ({ st with brains := b } : Store).coll name = st.coll name := rfl

/-- Every point of the over-full fixture collection is scoped to the
archived brain. -/
lemma bigPts_scoped :
    ∀ p ∈ bigPts, (p.brain_id == "brain_legacy_v1") = true := by
  intro p hp
  simp only [bigPts] at hp
  rcases List.mem_map.mp hp with ⟨i, _, rfl⟩
  rfl

/-- The scoped filter keeps the whole over-full collection. -/
lemma bigPts_filter_scoped :
    bigPts.filter (fun p => p.brain_id == "brain_legacy_v1") = bigPts :=
  List.filter_eq_self.mpr bigPts_scoped

/-- The limit-10000 scroll returns exactly the first 10000 of the 10001
points. -/
lemma bigPts_take :
    bigPts.take 10000 = (List.range 10000).map bigPt := by
  simp only [bigPts]
  rw [← List.map_take, List.take_range]
  norm_num

/-- Indices below 10000 give point ids different from that of the 10001st
point. -/
lemma bigPt_pid_ne {i : Nat} (h : i < 10000) :
    (bigPt i).pid ≠ (bigPt 10000).pid := by
  intro heq
  have hdata : List.replicate i 'a' = List.replicate 10000 'a' := by
    injection heq
  have hlen := congrArg List.length hdata
  simp only [List.length_replicate] at hlen
  omega

/-- The id of the 10001st point is not among the 10000 ids the limited
scroll returns. -/
lemma bigPt_last_not_contained :
    ((((List.range 10000).map bigPt).map (fun q => q.pid)).contains
      (bigPt 10000).pid) = false := by
  rw [List.contains_eq_any_beq, List.any_eq_false]
  intro x hx
  simp only [Bool.not_eq_true, beq_eq_false_iff_ne, ne_eq]
  intro hxeq
  rcases List.mem_map.mp hx with ⟨p, hp, rfl⟩
  rcases List.mem_map.mp hp with ⟨i, hi, rfl⟩
  exact bigPt_pid_ne (List.mem_range.mp hi) hxeq.symm

/-- The cascade step on the over-full collection: the scroll returns only
10000 of the 10001 scoped point ids and only those points are deleted. -/
lemma deleteCollectionStep_bigfx :
    deleteCollectionStep "brain_legacy_v1" (bigStoreFx, [])
      ("icp_rules", "icp_rules") =
    (bigStoreFx.setColl "icp_rules" bigSurvivors, [("icp_rules", 10000)]) := by
  have hcoll : bigStoreFx.coll "icp_rules" = bigPts := by
    simp [bigStoreFx, Store.coll, lookupColl]
  simp only [deleteCollectionStep, bigSurvivors, hcoll, bigPts_filter_scoped,
    bigPts_take, List.length_map, List.length_range]
  norm_num

set_option maxHeartbeats 1000000 in
/-- C4 (amended): `delete_brain` without `confirm = true` fails and deletes
nothing; on an active brain it fails with a conflict and deletes nothing;
on a draft or archived brain holding at most 10000 scoped points per
content collection (the single scroll limit of the cascade) it deletes
every stored point scoped to the brain id in each of the five content
collections, reports the per-collection deleted counts and their
aggregate, and deletes the brain record itself. -/
theorem delete_brain_cascade :
    (∀ (st : Store) (bid : String),
       delete_brain st bid false =
         (st, Except.error ToolError.confirmRequired)) ∧
    (∀ (st : Store) (bid : String) (p : BrainPoint),
       validate_brain_id bid = true →
       scrollBrains st [("id", bid)] 1 = [p] →
       p.brain.status = BrainStatus.active →
       delete_brain st bid true =
         (st, Except.error (ToolError.cannotDeleteActive bid))) ∧
    (∀ (st : Store) (bid : String) (p : BrainPoint),
       validate_brain_id bid = true →
       scrollBrains st [("id", bid)] 1 = [p] →
       p.brain.status ≠ BrainStatus.active →
       (st.brains.map (fun q => q.brain.id)).Nodup →
       (∀ c ∈ contentCollections,
         ((st.coll c.1).map (fun q => q.pid)).Nodup) →
       (∀ c ∈ contentCollections,
         ((st.coll c.1).filter (fun q => q.brain_id == bid)).length ≤ 10000) →
       (delete_brain st bid true).2 = Except.ok
         ⟨bid,
          contentCollections.map (fun c => (c.2,
            ((st.coll c.1).filter (fun q => q.brain_id == bid)).length)),
          ((contentCollections.map (fun c => (c.2,
            ((st.coll c.1).filter (fun q => q.brain_id == bid)).length))).map
              (fun e => e.2)).sum⟩ ∧
       (∀ c ∈ contentCollections, (delete_brain st bid true).1.coll c.1 =
         (st.coll c.1).filter (fun q => !(q.brain_id == bid))) ∧
       (∀ q ∈ (delete_brain st bid true).1.brains, q.brain.id ≠ bid)) := by
  refine ⟨?_, ?_, ?_⟩
  · intro st bid
    rfl
  · intro st bid p hfmt hfind hactive
    have hval : _validate_brain_exists st bid = Except.ok p.brain := by
      unfold _validate_brain_exists
      rw [if_neg (by simp [hfmt]), hfind]
    simp [delete_brain, hval, hactive]
  · intro st bid p hfmt hfind hstat hids hnodup hbound
    have hval : _validate_brain_exists st bid = Except.ok p.brain := by
      unfold _validate_brain_exists
      rw [if_neg (by simp [hfmt]), hfind]
    rcases deleteCascade_fold bid st contentCollections st []
      (fun c _ => rfl) (by decide) hnodup hbound with
      ⟨hfb, hfacc, hfcoll, hfother⟩
    rcases hFeq : contentCollections.foldl (deleteCollectionStep bid)
      (st, ([] : List (String × Nat))) with ⟨F1, F2⟩
    rw [hFeq] at hfb hfacc hfcoll hfother
    dsimp only at hfb hfacc hfcoll hfother
    have hscroll2 : scrollBrains F1 [("id", bid)] 1 = [p] := by
      rw [scrollBrains_congr hfb, hfind]
    have hred : delete_brain st bid true =
        ({ F1 with
            brains := F1.brains.filter (fun q => !(q.pid == p.pid)) },
         Except.ok ⟨bid, F2, (F2.map (fun e => e.2)).sum⟩) := by
      unfold delete_brain
      rw [hval, hFeq]
      simp only [hstat, hscroll2, Bool.true_eq_false, if_false, ite_false]
    have hpmem : p ∈ st.brains ∧ p.brain.id = bid := by
      have hp : p ∈ scrollBrains st [("id", bid)] 1 := by
        rw [hfind]; exact List.mem_cons_self _ _
      rcases mem_scrollBrains hp with ⟨hmem, hcond⟩
      refine ⟨hmem, ?_⟩
      have := hcond ("id", bid) (List.mem_singleton.mpr rfl)
      simpa [Brain.field] using this
    refine ⟨?_, ?_, ?_⟩
    · rw [hred]
      simp only [hfacc, List.nil_append]
    · intro c hc
      rw [hred, Store.coll_setBrains]
      exact hfcoll c hc
    · intro q hq
      rw [hred] at hq
      simp only [] at hq
      rw [hfb] at hq
      rcases List.mem_filter.mp hq with ⟨hqmem, hqpid⟩
      intro hqbid
      have hqp : q = p :=
        List.inj_on_of_nodup_map hids hqmem hpmem.1
          (by rw [hqbid, hpmem.2])
      rw [hqp] at hqpid
      simp at hqpid

/-- C4 witness: on the fixture store, deletion without confirmation fails,
deleting the active brain fails, and deleting the archived brain cascades
over the five collections and removes the brain record. -/
theorem delete_brain_cascade_witness :
    delete_brain storeFx "brain_fintech_v1" false =
      (storeFx, Except.error ToolError.confirmRequired) ∧
    (validate_brain_id "brain_fintech_v1" = true ∧
     scrollBrains storeFx [("id", "brain_fintech_v1")] 1 =
       [⟨generate_point_id "brain_fintech_v1" "brain_fintech_v1",
         brainActiveFx⟩] ∧
     brainActiveFx.status = BrainStatus.active ∧
     delete_brain storeFx "brain_fintech_v1" true =
       (storeFx,
        Except.error (ToolError.cannotDeleteActive "brain_fintech_v1"))) ∧
    (validate_brain_id "brain_legacy_v1" = true ∧
     scrollBrains storeFx [("id", "brain_legacy_v1")] 1 =
       [⟨generate_point_id "brain_legacy_v1" "brain_legacy_v1",
         brainArchivedFx⟩] ∧
     brainArchivedFx.status ≠ BrainStatus.active ∧
     (storeFx.brains.map (fun q => q.brain.id)).Nodup ∧
     (∀ c ∈ contentCollections,
       ((storeFx.coll c.1).map (fun q => q.pid)).Nodup) ∧
     (∀ c ∈ contentCollections,
       ((storeFx.coll c.1).filter
         (fun q => q.brain_id == "brain_legacy_v1")).length ≤ 10000) ∧
     ((delete_brain storeFx "brain_legacy_v1" true).2 = Except.ok
        ⟨"brain_legacy_v1",
         contentCollections.map (fun c => (c.2,
           ((storeFx.coll c.1).filter
             (fun q => q.brain_id == "brain_legacy_v1")).length)),
         ((contentCollections.map (fun c => (c.2,
           ((storeFx.coll c.1).filter
             (fun q => q.brain_id == "brain_legacy_v1")).length))).map
               (fun e => e.2)).sum⟩ ∧
      (∀ c ∈ contentCollections,
        (delete_brain storeFx "brain_legacy_v1" true).1.coll c.1 =
          (storeFx.coll c.1).filter
            (fun q => !(q.brain_id == "brain_legacy_v1"))) ∧
      (∀ q ∈ (delete_brain storeFx "brain_legacy_v1" true).1.brains,
        q.brain.id ≠ "brain_legacy_v1"))) := by
  refine ⟨delete_brain_cascade.1 storeFx "brain_fintech_v1",
    ⟨by decide, by decide, by decide,
     delete_brain_cascade.2.1 storeFx "brain_fintech_v1"
       ⟨generate_point_id "brain_fintech_v1" "brain_fintech_v1",
        brainActiveFx⟩ (by decide) (by decide) (by decide)⟩,
    ⟨by decide, by decide, by decide, by decide, by decide, by decide,
     delete_brain_cascade.2.2 storeFx "brain_legacy_v1"
       ⟨generate_point_id "brain_legacy_v1" "brain_legacy_v1",
        brainArchivedFx⟩ (by decide) (by decide) (by decide) (by decide)
       (by decide) (by decide)⟩⟩

set_option maxHeartbeats 1000000 in
/-- C4 counterexample: the claim says a deletion on a draft or archived
brain deletes every stored point scoped to the brain id in each content
collection, but the cascade scrolls each collection only once with limit
10000.  On a store whose icp_rules collection holds 10001 points scoped to
the archived brain, delete_brain returns ok and reports 10000 deletions
while the 10001st point — still scoped to the deleted brain — remains
stored. -/
theorem delete_brain_scroll_limit_counterexample :
    (delete_brain bigStoreFx "brain_legacy_v1" true).2 =
      Except.ok ⟨"brain_legacy_v1",
        [("icp_rules", 10000), ("response_templates", 0),
         ("objection_handlers", 0), ("market_research", 0), ("insights", 0)],
        10000⟩ ∧
    bigPt 10000 ∈
      (delete_brain bigStoreFx "brain_legacy_v1" true).1.coll "icp_rules" ∧
    (bigPt 10000).brain_id = "brain_legacy_v1" := by
  have hval : _validate_brain_exists bigStoreFx "brain_legacy_v1" =
      Except.ok brainArchivedFx := by rfl
  have hstat : brainArchivedFx.status ≠ BrainStatus.active := by decide
  have h1 : (bigStoreFx.setColl "icp_rules" bigSurvivors).coll
      "response_templates" = [] := by
    rw [Store.coll_setColl_other _ _ _ _ (by decide)]
    simp [bigStoreFx, Store.coll, lookupColl]
  have h2 : (bigStoreFx.setColl "icp_rules" bigSurvivors).coll
      "objection_handlers" = [] := by
    rw [Store.coll_setColl_other _ _ _ _ (by decide)]
    simp [bigStoreFx, Store.coll, lookupColl]
  have h3 : (bigStoreFx.setColl "icp_rules" bigSurvivors).coll
      "market_research" = [] := by
    rw [Store.coll_setColl_other _ _ _ _ (by decide)]
    simp [bigStoreFx, Store.coll, lookupColl]
  have h4 : (bigStoreFx.setColl "icp_rules" bigSurvivors).coll
      "insights" = [] := by
    rw [Store.coll_setColl_other _ _ _ _ (by decide)]
    simp [bigStoreFx, Store.coll, lookupColl]
  have hnodup4 : ∀ c ∈ ([("response_templates", "response_templates"),
      ("objection_handlers", "objection_handlers"),
      ("market_research", "market_research"),
      ("insights", "insights")] : List (String × String)),
      (((bigStoreFx.setColl "icp_rules" bigSurvivors).coll c.1).map
        (fun p => p.pid)).Nodup := by
    intro c hc
    fin_cases hc <;> simp [h1, h2, h3, h4]
  have hbound4 : ∀ c ∈ ([("response_templates", "response_templates"),
      ("objection_handlers", "objection_handlers"),
      ("market_research", "market_research"),
      ("insights", "insights")] : List (String × String)),
      (((bigStoreFx.setColl "icp_rules" bigSurvivors).coll c.1).filter
        (fun p => p.brain_id == "brain_legacy_v1")).length ≤ 10000 := by
    intro c hc
    fin_cases hc <;> simp [h1, h2, h3, h4]
  rcases deleteCascade_fold "brain_legacy_v1"
      (bigStoreFx.setColl "icp_rules" bigSurvivors)
      [("response_templates", "response_templates"),
       ("objection_handlers", "objection_handlers"),
       ("market_research", "market_research"),
       ("insights", "insights")]
      (bigStoreFx.setColl "icp_rules" bigSurvivors)
      [("icp_rules", 10000)]
      (fun c _ => rfl) (by decide) hnodup4 hbound4 with
      ⟨hrb, hracc, hrcoll, hrother⟩
  rcases hFeq : [("response_templates", "response_templates"),
      ("objection_handlers", "objection_handlers"),
      ("market_research", "market_research"),
      ("insights", "insights")].foldl
      (deleteCollectionStep "brain_legacy_v1")
      (bigStoreFx.setColl "icp_rules" bigSurvivors, [("icp_rules", 10000)])
      with ⟨F1, F2⟩
  rw [hFeq] at hrb hracc hrcoll hrother
  dsimp only at hrb hracc hrcoll hrother
  have hfold1 : contentCollections.foldl
      (deleteCollectionStep "brain_legacy_v1")
      (bigStoreFx, ([] : List (String × Nat))) = (F1, F2) := by
    rw [show contentCollections = ("icp_rules", "icp_rules") ::
      [("response_templates", "response_templates"),
       ("objection_handlers", "objection_handlers"),
       ("market_research", "market_research"),
       ("insights", "insights")] from rfl]
    rw [List.foldl_cons, deleteCollectionStep_bigfx, hFeq]
  have hbr : F1.brains = bigStoreFx.brains := by
    rw [hrb]
    exact Store.brains_setColl _ _ _
  have hscroll2 : scrollBrains F1 [("id", "brain_legacy_v1")] 1 =
      [⟨generate_point_id "brain_legacy_v1" "brain_legacy_v1",
        brainArchivedFx⟩] := by
    rw [scrollBrains_congr hbr]
    rfl
  have hF2 : F2 = [("icp_rules", 10000), ("response_templates", 0),
      ("objection_handlers", 0), ("market_research", 0),
      ("insights", 0)] := by
    rw [hracc]
    simp [h1, h2, h3, h4]
  have hred : delete_brain bigStoreFx "brain_legacy_v1" true =
      ({ F1 with brains := F1.brains.filter (fun q => !(q.pid ==
          generate_point_id "brain_legacy_v1" "brain_legacy_v1")) },
       Except.ok ⟨"brain_legacy_v1", F2, (F2.map (fun e => e.2)).sum⟩) := by
    unfold delete_brain
    rw [hval, hfold1]
    simp only [hstat, hscroll2, Bool.true_eq_false, if_false, ite_false]
  have hmem : bigPt 10000 ∈ bigSurvivors := by
    simp only [bigSurvivors]
    apply List.mem_filter.mpr
    refine ⟨?_, ?_⟩
    · simp only [bigPts]
      exact List.mem_map.mpr ⟨10000, List.mem_range.mpr (by norm_num), rfl⟩
    · show (!((((List.range 10000).map bigPt).map (fun q => q.pid)).contains
        (bigPt 10000).pid)) = true
      rw [bigPt_last_not_contained]
      rfl
  refine ⟨?_, ?_, rfl⟩
  · rw [hred, hF2]
    rfl
  · rw [hred, Store.coll_setBrains]
    rw [hrother "icp_rules" (by decide)]
    rw [Store.coll_setColl_same]
    exact hmem

/-- The status string round trip into the two-condition scroll predicate of
the cascade-archive scroll. -/
lemma activeScrollPred (q : BrainPoint) (V : String) :
    (([("vertical", V), ("status", "active")].all
      (fun c => q.brain.field c.1 == some c.2)) = true) ↔
      (q.brain.vertical = V ∧ q.brain.status = BrainStatus.active) := by
  simp only [List.all_cons, List.all_nil, Bool.and_true, Bool.and_eq_true,
    beq_iff_eq, Option.some.injEq, Brain.field]
  constructor
  · rintro ⟨h1, h2⟩
    refine ⟨h1, ?_⟩
    cases hq : q.brain.status <;> rw [hq] at h2 <;>
      simp [BrainStatus.toStr] at h2 ⊢
  · rintro ⟨h1, h2⟩
    exact ⟨h1, by rw [h2]; rfl⟩

/-- A brain that is not active may always transition to active
(draft→active and archived→active are both legal). -/
lemma transition_to_active_of_ne (s : BrainStatus)
    (h : s ≠ BrainStatus.active) :
    validate_status_transition s BrainStatus.active = true := by
  cases s
  · decide
  · exact absurd rfl h
  · decide

/-- Overwriting upsert: when a point with the id exists, the upsert is a
pointwise replacement. -/
lemma upsertBrainPoint_existing (ps : List BrainPoint) (pid : String)
    (b : Brain) (h : ps.any (fun p => p.pid == pid) = true) :
    upsertBrainPoint ps pid b =
      ps.map (fun p => if p.pid == pid then ⟨pid, b⟩ else p) := by
  unfold upsertBrainPoint
  rw [if_pos h]

set_option maxHeartbeats 1000000 in
/-- C1: in a well-formed store (duplicate-free brain ids and point ids,
point ids derived from the payload id, nonempty ids) where `pB1` is the
single active brain of the vertical and `pB2` is another brain of the same
vertical, activating `pB2` succeeds, reports `deactivated_brain_id =
pB1.id`, rewrites `pB1` to archived and `pB2` to active, and leaves no
brain of the vertical active other than `pB2`; and when no brain of the
vertical is active, a legal activation reports `deactivated_brain_id =
none`. -/
theorem single_active_brain_per_vertical :
    (∀ (st : Store) (now : String) (pB1 pB2 : BrainPoint),
      (st.brains.map (fun q => q.brain.id)).Nodup →
      (st.brains.map (fun q => q.pid)).Nodup →
      (∀ q ∈ st.brains, q.pid = generate_point_id q.brain.id q.brain.id) →
      (∀ q ∈ st.brains, q.brain.id ≠ "") →
      pB1 ∈ st.brains → pB2 ∈ st.brains →
      pB1.brain.vertical = pB2.brain.vertical →
      pB1.brain.status = BrainStatus.active →
      pB2.brain.id ≠ pB1.brain.id →
      validate_brain_id pB2.brain.id = true →
      (∀ q ∈ st.brains, q.brain.vertical = pB2.brain.vertical →
        q.brain.status = BrainStatus.active → q.brain.id = pB1.brain.id) →
      (update_brain_status st now pB2.brain.id "active").2 =
        Except.ok ⟨pB2.brain.id, pB2.brain.status, BrainStatus.active,
          some pB1.brain.id⟩ ∧
      (∀ q ∈ (update_brain_status st now pB2.brain.id "active").1.brains,
        (q.brain.id = pB1.brain.id → q.brain.status = BrainStatus.archived) ∧
        (q.brain.id = pB2.brain.id → q.brain.status = BrainStatus.active) ∧
        (q.brain.vertical = pB2.brain.vertical →
          q.brain.status = BrainStatus.active → q.brain.id = pB2.brain.id)) ∧
      (∃ q ∈ (update_brain_status st now pB2.brain.id "active").1.brains,
        q.brain.id = pB1.brain.id) ∧
      (∃ q ∈ (update_brain_status st now pB2.brain.id "active").1.brains,
        q.brain.id = pB2.brain.id)) ∧
    (∀ (st : Store) (now : String) (pB2 : BrainPoint),
      (st.brains.map (fun q => q.brain.id)).Nodup →
      pB2 ∈ st.brains →
      validate_brain_id pB2.brain.id = true →
      validate_status_transition pB2.brain.status BrainStatus.active = true →
      (∀ q ∈ st.brains, q.brain.vertical = pB2.brain.vertical →
        q.brain.status ≠ BrainStatus.active) →
      (update_brain_status st now pB2.brain.id "active").2 =
        Except.ok ⟨pB2.brain.id, pB2.brain.status, BrainStatus.active,
          none⟩) := by
  constructor
  · intro st now pB1 pB2 hids hpids hwf hne hm1 hm2 hvert hact hdiff hfmt
      hsingle
    have hndbrains : st.brains.Nodup := List.Nodup.of_map _ hids
    have hB2ne : pB2.brain.status ≠ BrainStatus.active := fun h =>
      hdiff (hsingle pB2 hm2 rfl h)
    have htrans := transition_to_active_of_ne _ hB2ne
    have hval : _validate_brain_exists st pB2.brain.id =
        Except.ok pB2.brain := by
      unfold _validate_brain_exists
      rw [if_neg (by simp [hfmt]), scrollBrains_id_singleton hids hm2]
    have hfilter : st.brains.filter
        (fun q => [("vertical", pB2.brain.vertical), ("status", "active")].all
          (fun c => q.brain.field c.1 == some c.2)) = [pB1] := by
      refine filter_singleton_of_unique hndbrains hm1
        ((activeScrollPred pB1 pB2.brain.vertical).mpr ⟨hvert, hact⟩) ?_
      intro x hx hpx
      rcases (activeScrollPred x pB2.brain.vertical).mp hpx with ⟨hxv, hxa⟩
      exact List.inj_on_of_nodup_map hids hx hm1 (hsingle x hx hxv hxa)
    have hscroll : scrollBrains st
        [("vertical", pB2.brain.vertical), ("status", "active")] 10 =
        [pB1] := by
      unfold scrollBrains
      rw [hfilter]
      rfl
    have hpid1 : pB1.pid = generate_point_id pB1.brain.id pB1.brain.id :=
      hwf pB1 hm1
    have hpid2 : pB2.pid = generate_point_id pB2.brain.id pB2.brain.id :=
      hwf pB2 hm2
    have hpidne : pB2.pid ≠ pB1.pid := by
      intro h
      exact hdiff (congrArg (fun q => q.brain.id)
        (List.inj_on_of_nodup_map hpids hm2 hm1 h))
    have hne1 : pB1.brain.id ≠ "" := hne pB1 hm1
    have hne2 : pB1.brain.id ≠ pB2.brain.id := fun h => hdiff h.symm
    have hcond : ((pB1.brain.id != "") && (pB1.brain.id != pB2.brain.id)) =
        true := by
      simp [hne1, hne2]
    have hany1 : st.brains.any (fun p =>
        p.pid == generate_point_id pB1.brain.id pB1.brain.id) = true := by
      refine List.any_eq_true.mpr ⟨pB1, hm1, ?_⟩
      rw [← hpid1]
      simp
    have hfold : [pB1].foldl (archiveSiblingStep now pB2.brain.id)
        (st.brains, (none : Option String)) =
        (st.brains.map (fun p =>
          if p.pid == generate_point_id pB1.brain.id pB1.brain.id then
            (⟨generate_point_id pB1.brain.id pB1.brain.id, { pB1.brain with status := BrainStatus.archived, updated_at := now }⟩ : BrainPoint)
          else p),
         some pB1.brain.id) := by
      rw [List.foldl_cons, List.foldl_nil]
      unfold archiveSiblingStep
      rw [if_pos hcond, upsertBrainPoint_existing _ _ _ hany1]
    have hf1B2 : (pB2.pid == generate_point_id pB1.brain.id pB1.brain.id) =
        false := by
      rw [← hpid1]
      simp [hpidne]
    have hany2 : (st.brains.map (fun p =>
        if p.pid == generate_point_id pB1.brain.id pB1.brain.id then
          (⟨generate_point_id pB1.brain.id pB1.brain.id, { pB1.brain with status := BrainStatus.archived, updated_at := now }⟩ : BrainPoint)
        else p)).any (fun p =>
          p.pid == generate_point_id pB2.brain.id pB2.brain.id) = true := by
      refine List.any_eq_true.mpr ⟨pB2, List.mem_map.mpr ⟨pB2, hm2, ?_⟩, ?_⟩
      · rw [if_neg (by simp [hf1B2])]
      · rw [← hpid2]
        simp
    have hred : update_brain_status st now pB2.brain.id "active" =
        ({ st with brains := (st.brains.map (fun p =>
            if p.pid == generate_point_id pB1.brain.id pB1.brain.id then
              (⟨generate_point_id pB1.brain.id pB1.brain.id, { pB1.brain with status := BrainStatus.archived, updated_at := now }⟩ : BrainPoint)
            else p)).map (fun p =>
            if p.pid == generate_point_id pB2.brain.id pB2.brain.id then
              (⟨generate_point_id pB2.brain.id pB2.brain.id, { pB2.brain with status := BrainStatus.active, updated_at := now }⟩ : BrainPoint)
            else p) },
         Except.ok ⟨pB2.brain.id, pB2.brain.status, BrainStatus.active,
           some pB1.brain.id⟩) := by
      unfold update_brain_status
      rw [if_neg (by simp [hfmt])]
      rw [show parseBrainStatus "active" = some BrainStatus.active from rfl]
      rw [hval]
      simp only [htrans, Bool.true_eq_false, if_false, ite_false,
        eq_self_iff_true, if_true, hscroll, hfold]
      rw [upsertBrainPoint_existing _ _ _ hany2]
    have hc1 : (pB1.pid == generate_point_id pB1.brain.id pB1.brain.id) =
        true := by
      rw [← hpid1]; simp
    have hc2 : (pB2.pid == generate_point_id pB2.brain.id pB2.brain.id) =
        true := by
      rw [← hpid2]; simp
    have hg12 : (generate_point_id pB1.brain.id pB1.brain.id ==
        generate_point_id pB2.brain.id pB2.brain.id) = false := by
      rw [← hpid1, ← hpid2]
      exact beq_eq_false_iff_ne.mpr (Ne.symm hpidne)
    refine ⟨by rw [hred], ?_, ?_, ?_⟩
    · intro q hq
      rw [hred] at hq
      rcases List.mem_map.mp hq with ⟨y, hy, rfl⟩
      rcases List.mem_map.mp hy with ⟨x, hx, rfl⟩
      by_cases hx1 : x = pB1
      · subst hx1
        simp [hc1, hg12, hne2]
      · by_cases hx2 : x = pB2
        · subst hx2
          simp [hf1B2, hc2, hdiff]
        · have hxp1 : (x.pid == generate_point_id pB1.brain.id pB1.brain.id) =
              false := by
            refine beq_eq_false_iff_ne.mpr ?_
            rw [← hpid1]
            intro h
            exact hx1 (List.inj_on_of_nodup_map hpids hx hm1 h)
          have hxp2 : (x.pid == generate_point_id pB2.brain.id pB2.brain.id) =
              false := by
            refine beq_eq_false_iff_ne.mpr ?_
            rw [← hpid2]
            intro h
            exact hx2 (List.inj_on_of_nodup_map hpids hx hm2 h)
          simp only [hxp1, hxp2, Bool.false_eq_true, if_false, ite_false]
          refine ⟨?_, ?_, ?_⟩
          · intro h
            exact absurd (List.inj_on_of_nodup_map hids hx hm1 h) hx1
          · intro h
            exact absurd (List.inj_on_of_nodup_map hids hx hm2 h) hx2
          · intro hv ha
            exact absurd (List.inj_on_of_nodup_map hids hx hm1
              (hsingle x hx hv ha)) hx1
    · refine ⟨(⟨generate_point_id pB1.brain.id pB1.brain.id, { pB1.brain with status := BrainStatus.archived, updated_at := now }⟩ : BrainPoint), ?_, rfl⟩
      rw [hred]
      refine List.mem_map.mpr ⟨_, List.mem_map.mpr ⟨pB1, hm1, rfl⟩, ?_⟩
      simp only [hc1, hg12, if_true, ite_true, Bool.false_eq_true, if_false,
        ite_false]
    · refine ⟨(⟨generate_point_id pB2.brain.id pB2.brain.id, { pB2.brain with status := BrainStatus.active, updated_at := now }⟩ : BrainPoint), ?_, rfl⟩
      rw [hred]
      refine List.mem_map.mpr ⟨pB2, List.mem_map.mpr ⟨pB2, hm2, ?_⟩, ?_⟩
      · simp only [hf1B2, Bool.false_eq_true, if_false, ite_false]
      · simp only [hc2, if_true, ite_true]
  · intro st now pB2 hids hm2 hfmt htrans hnone
    have hval : _validate_brain_exists st pB2.brain.id =
        Except.ok pB2.brain := by
      unfold _validate_brain_exists
      rw [if_neg (by simp [hfmt]), scrollBrains_id_singleton hids hm2]
    have hfilter : st.brains.filter
        (fun q => [("vertical", pB2.brain.vertical), ("status", "active")].all
          (fun c => q.brain.field c.1 == some c.2)) = [] := by
      refine List.filter_eq_nil_iff.mpr ?_
      intro q hq hpq
      rcases (activeScrollPred q pB2.brain.vertical).mp hpq with ⟨hv, ha⟩
      exact hnone q hq hv ha
    have hscroll : scrollBrains st
        [("vertical", pB2.brain.vertical), ("status", "active")] 10 = [] := by
      unfold scrollBrains
      rw [hfilter]
      rfl
    unfold update_brain_status
    rw [if_neg (by simp [hfmt])]
    rw [show parseBrainStatus "active" = some BrainStatus.active from rfl]
    rw [hval]
    simp only [htrans, Bool.true_eq_false, if_false, ite_false,
      eq_self_iff_true, if_true, hscroll, List.foldl_nil]

/-- C1 witness: on the fixture store, activating the draft fintech brain
archives the active one and reports it; activating the archived legacy
brain (no active sibling) reports no deactivation. -/
theorem single_active_brain_witness :
    ((storeFx.brains.map (fun q => q.brain.id)).Nodup ∧
     (storeFx.brains.map (fun q => q.pid)).Nodup ∧
     (∀ q ∈ storeFx.brains, q.pid = generate_point_id q.brain.id q.brain.id) ∧
     (∀ q ∈ storeFx.brains, q.brain.id ≠ "") ∧
     (⟨generate_point_id "brain_fintech_v1" "brain_fintech_v1",
       brainActiveFx⟩ : BrainPoint) ∈ storeFx.brains ∧
     (⟨generate_point_id "brain_fintech_v2" "brain_fintech_v2",
       brainDraftFx⟩ : BrainPoint) ∈ storeFx.brains ∧
     brainActiveFx.vertical = brainDraftFx.vertical ∧
     brainActiveFx.status = BrainStatus.active ∧
     brainDraftFx.id ≠ brainActiveFx.id ∧
     validate_brain_id brainDraftFx.id = true ∧
     (∀ q ∈ storeFx.brains, q.brain.vertical = brainDraftFx.vertical →
       q.brain.status = BrainStatus.active → q.brain.id = brainActiveFx.id)) ∧
    ((update_brain_status storeFx "t1" brainDraftFx.id "active").2 =
       Except.ok ⟨brainDraftFx.id, brainDraftFx.status, BrainStatus.active,
         some brainActiveFx.id⟩ ∧
     (∀ q ∈ (update_brain_status storeFx "t1" brainDraftFx.id
         "active").1.brains,
       (q.brain.id = brainActiveFx.id →
         q.brain.status = BrainStatus.archived) ∧
       (q.brain.id = brainDraftFx.id →
         q.brain.status = BrainStatus.active) ∧
       (q.brain.vertical = brainDraftFx.vertical →
         q.brain.status = BrainStatus.active →
         q.brain.id = brainDraftFx.id)) ∧
     (∃ q ∈ (update_brain_status storeFx "t1" brainDraftFx.id
         "active").1.brains, q.brain.id = brainActiveFx.id) ∧
     (∃ q ∈ (update_brain_status storeFx "t1" brainDraftFx.id
         "active").1.brains, q.brain.id = brainDraftFx.id)) ∧
    ((update_brain_status storeFx "t1" brainArchivedFx.id "active").2 =
       Except.ok ⟨brainArchivedFx.id, brainArchivedFx.status,
         BrainStatus.active, none⟩) := by
  refine ⟨⟨by decide, by decide, by decide, by decide, by decide, by decide,
    by decide, by decide, by decide, by decide, by decide⟩, ?_, ?_⟩
  · exact single_active_brain_per_vertical.1 storeFx "t1"
      ⟨generate_point_id "brain_fintech_v1" "brain_fintech_v1", brainActiveFx⟩
      ⟨generate_point_id "brain_fintech_v2" "brain_fintech_v2", brainDraftFx⟩
      (by decide) (by decide) (by decide) (by decide) (by decide) (by decide)
      (by decide) (by decide) (by decide) (by decide) (by decide)
  · exact single_active_brain_per_vertical.2 storeFx "t1"
      ⟨generate_point_id "brain_legacy_v1" "brain_legacy_v1",
       brainArchivedFx⟩
      (by decide) (by decide) (by decide) (by decide) (by decide)

end AtlasGTM
